import Mathlib

/-!
Verification of the Conway Game of Life engine in `game_of_life.py`
(classes `NullCell`, `Cell`, `Neighbour`, `Neighbours`, `Universe`).

Modelling conventions (shallow embedding):
* Python `int` cell states become `Nat`; `Cell._state` can become Python
  `None` after `commit()` with no staged value, so it is an `Option Nat`
  (`bool(None) = False`, so `none` reads as dead).
* `Cell._state_dirty` is `Option Nat` (`None` = no stage pending,
  `int(alive)` otherwise).
* The Python code wires each cell's eight neighbour references once, in
  `Universe.__init__`, using the construction-time `width`/`height` for the
  bounds check; the wiring is never changed afterwards.  We record `width`
  and `height` in the structure and recompute that fixed wiring
  functionally: the neighbour slot of `(x, y)` resolves to the live board
  entry at `(x+dx, y+dy)` when `-1 < x+dx < width` and `-1 < y+dy < height`,
  and to the permanently dead `NullCell` sentinel (state `0`) otherwise —
  exactly what `get_neighbour` plus the `Neighbour` descriptor do.
* Mutation becomes explicit state passing: operations on a `Universe`
  return the new `Universe`.  Python exceptions (`AssertionError` from the
  `is_alive` setter's `assert`, `IndexError` from list indexing) become an
  `Except PyError` result.
* `tick` iterates `self._cells`, the flat row-major list built at
  construction; since the board shape never changes, this is the list of
  board coordinates `(x, y)` in row-major order, which we recompute from
  the board.
-/

/-- Python exceptions that the modelled code can raise.  `StagingConflict`
is the `AssertionError` of the `Cell.is_alive` setter's
`assert self._state_dirty is None`; `IndexError` arises from list
subscripting in `Universe.__setitem__`. -/
inductive PyError where
  | StagingConflict
  | IndexError
deriving DecidableEq, Repr

/-- `Cell`: `_state` (committed state, an `int`, or Python `None` after a
`commit()` with nothing staged), `_state_dirty` (pending staged state), and
the immutable position.  The `rectangle` field is rendering-only and
omitted. -/
structure Cell where
  state : Option Nat
  state_dirty : Option Nat
  pos_x : Nat
  pos_y : Nat
deriving DecidableEq, Repr

/-- `Cell.is_alive` getter: `bool(self._state)`; `bool(None)` and
`bool(0)` are `False`. -/
def Cell.is_alive (c : Cell) : Bool :=
  c.state.getD 0 != 0

/-- The `Cell.is_alive` setter: `assert self._state_dirty is None;
self._state_dirty = int(alive)`.  A failing `assert` raises before the
assignment, so on error nothing changes. -/
def Cell.set_is_alive (c : Cell) (alive : Bool) : Except PyError Cell :=
  if c.state_dirty = none then
    Except.ok { c with state_dirty := some (if alive then 1 else 0) }
  else
    Except.error PyError.StagingConflict

/-- `Cell.commit`: `self._state = self._state_dirty; self._state_dirty =
None`.  Note there is no check that a stage is pending: with
`_state_dirty = None` this sets `_state` to `None`. -/
def Cell.commit (c : Cell) : Cell :=
  { c with state := c.state_dirty, state_dirty := none }

/-- A `Neighbour` descriptor's relative coordinates. -/
structure Neighbour where
  x : Int
  y : Int
deriving DecidableEq, Repr

def Neighbours.top : Neighbour := ⟨0, -1⟩
def Neighbours.top_right : Neighbour := ⟨1, -1⟩
def Neighbours.right : Neighbour := ⟨1, 0⟩
def Neighbours.bottom_right : Neighbour := ⟨1, 1⟩
def Neighbours.bottom : Neighbour := ⟨0, 1⟩
def Neighbours.bottom_left : Neighbour := ⟨-1, 1⟩
def Neighbours.left : Neighbour := ⟨-1, 0⟩
def Neighbours.top_left : Neighbour := ⟨-1, -1⟩

/-- The eight neighbour slots of a cell, in the order `get_alive_count`
sums them. -/
def Neighbours.offsets : List Neighbour :=
  [Neighbours.top, Neighbours.top_right, Neighbours.right,
   Neighbours.bottom_right, Neighbours.bottom, Neighbours.bottom_left,
   Neighbours.left, Neighbours.top_left]

/-- Replace the element at index `n` by its image under `f`; out-of-range
indices leave the list unchanged (helper for in-place cell mutation). -/
def listModify (f : α → α) : Nat → List α → List α
  | _, [] => []
  | 0, a :: as => f a :: as
  | n + 1, a :: as => a :: listModify f n as

/-- `Universe`: `_board` is the row-major list of rows of cells.
`width`/`height` are the construction parameters, kept because the
neighbour wiring built in `Universe.__init__` is a function of them (see
the module docstring). -/
structure Universe where
  width : Nat
  height : Nat
  board : List (List Cell)
deriving DecidableEq, Repr

/-- Stand-in cell for lookups that cannot fail in the Python code (every
lookup the model performs at an in-board coordinate hits a real cell). -/
def defaultCell : Cell :=
  { state := some 0, state_dirty := none, pos_x := 0, pos_y := 0 }

/-- `self._board[y][x]` for in-range nonnegative indices. -/
def Universe.cellAtD (u : Universe) (x y : Nat) : Cell :=
  (u.board.getD y []).getD x defaultCell

/-- Write back the cell at `(x, y)` through `f` (Python mutates the cell
object aliased by `_board`, `_cells` and all neighbour references). -/
def Universe.modifyCell (u : Universe) (x y : Nat) (f : Cell → Cell) : Universe :=
  { u with board := listModify (listModify f x) y u.board }

/-- The nested `get_neighbour` of `Universe.__init__`: resolve one relative
offset for the cell at `(col_ptr, row_ptr)`; `None` (here `none`) when the
target falls outside `[0, width) × [0, height)`, in which case the
`Neighbour.__set__` descriptor keeps the `Cell.NULL` sentinel. -/
def Universe.get_neighbour (u : Universe) (col_ptr row_ptr : Nat)
    (nb : Neighbour) : Option Cell :=
  let x : Int := (col_ptr : Int) + nb.x
  let y : Int := (row_ptr : Int) + nb.y
  if -1 < x ∧ x < (u.width : Int) ∧ -1 < y ∧ y < (u.height : Int) then
    some (u.cellAtD x.toNat y.toNat)
  else
    none

/-- The `_state` read through one neighbour slot: the aliased neighbouring
cell's current state, or `NullCell._state = 0` at the border.  (On the
universes the public API produces every state is an `int`, see `Bool01`
below, so reading it as a `Nat` via `getD 0` is faithful.) -/
def Universe.neighbourState (u : Universe) (x y : Nat) (nb : Neighbour) : Nat :=
  match u.get_neighbour x y nb with
  | some c => c.state.getD 0
  | none => 0

/-- `Neighbours.get_alive_count` for the cell at `(x, y)`: the sum of the
eight neighbour slots' `_state`s. -/
def Universe.get_alive_count (u : Universe) (x y : Nat) : Nat :=
  (Neighbours.offsets.map (u.neighbourState x y)).sum

/-- `Universe.__init__(width, height)`: `height` rows of `width` cells,
each `Cell(False, col_ptr, row_ptr)`.  Note the source constructor
performs no validation of `width` or `height` and has no failure path. -/
def Universe.init (width height : Nat) : Universe :=
  { width := width, height := height,
    board := (List.range height).map (fun row_ptr =>
      (List.range width).map (fun col_ptr =>
        { state := some 0, state_dirty := none,
          pos_x := col_ptr, pos_y := row_ptr })) }

/-- Calling the constructor, seen as a fallible operation: since
`Universe.__init__` contains no `raise` and no failing subscript, it
always returns normally. -/
def Universe.construct (width height : Nat) : Except PyError Universe :=
  Except.ok (Universe.init width height)

/-- Python list subscripting: index `i` into a list of length `len` hits
position `i` when `0 ≤ i < len`, wraps to `len + i` when `-len ≤ i < 0`,
and raises `IndexError` otherwise. -/
def pyIndex (len : Nat) (i : Int) : Option Nat :=
  if 0 ≤ i ∧ i < (len : Int) then some i.toNat
  else if -(len : Int) ≤ i ∧ i < 0 then some ((len : Int) + i).toNat
  else none

/-- `Universe.__setitem__`: `cell = self._board[y][x]; cell.is_alive =
is_alive; cell.commit()`.  The row is subscripted first, then the column;
either subscript can raise `IndexError`, and the staged write can raise
the setter's `AssertionError` (`StagingConflict`). -/
def Universe.setItem (u : Universe) (x y : Int) (alive : Bool) :
    Except PyError Universe :=
  match pyIndex u.board.length y with
  | none => Except.error PyError.IndexError
  | some ry =>
    match pyIndex (u.board.getD ry []).length x with
    | none => Except.error PyError.IndexError
    | some rx =>
      match (u.cellAtD rx ry).set_is_alive alive with
      | Except.error e => Except.error e
      | Except.ok c => Except.ok (u.modifyCell rx ry (fun _ => c.commit))

/-- Total wrapper around `Universe.setItem` for seeding scripts (the
`__main__` block's `universe[col_ptr, row_ptr] = True` loop); every call
made through it in this development succeeds, as the accompanying
theorems show. -/
def Universe.setOk (u : Universe) (x y : Int) (alive : Bool) : Universe :=
  match u.setItem x y alive with
  | Except.ok v => v
  | Except.error _ => u

/-- The coordinates of `self._cells` in order: the flat row-major list
built during construction, recomputed from the (never reshaped) board. -/
def Universe.flatCoords (u : Universe) : List (Nat × Nat) :=
  (List.range u.board.length).flatMap (fun y =>
    (List.range (u.board.getD y []).length).map (fun x => (x, y)))

/-- The staging loop of `Universe.tick`: for each cell in flat order read
`get_alive_count`, then — exactly as in the source — a live cell stages
`n == 2 or n == 3` and is appended to `changed`, a dead cell stages `True`
and is appended only when `n == 3`.  Staging goes through the `is_alive`
setter and can therefore raise. -/
def Universe.tickStage :
    Universe → List (Nat × Nat) → List (Nat × Nat) →
      Except PyError (Universe × List (Nat × Nat))
  | u, changed, [] => Except.ok (u, changed)
  | u, changed, (x, y) :: rest =>
    let c := u.cellAtD x y
    let alive_neighbour_count := u.get_alive_count x y
    if c.is_alive then
      match c.set_is_alive
          (alive_neighbour_count == 2 || alive_neighbour_count == 3) with
      | Except.error e => Except.error e
      | Except.ok c' =>
        Universe.tickStage (u.modifyCell x y (fun _ => c'))
          (changed ++ [(x, y)]) rest
    else
      if alive_neighbour_count == 3 then
        match c.set_is_alive true with
        | Except.error e => Except.error e
        | Except.ok c' =>
          Universe.tickStage (u.modifyCell x y (fun _ => c'))
            (changed ++ [(x, y)]) rest
      else
        Universe.tickStage u changed rest

/-- The commit loop of `Universe.tick`: `for cell in changed:
cell.commit()`. -/
def Universe.commitChanged : Universe → List (Nat × Nat) → Universe
  | u, [] => u
  | u, (x, y) :: rest =>
    Universe.commitChanged (u.modifyCell x y Cell.commit) rest

/-- `Universe.tick`: stage every cell in flat order, collect `changed`,
then commit exactly the cells in `changed` and return them.  The returned
entries are the positions of the returned cell objects. -/
def Universe.tick (u : Universe) :
    Except PyError (List (Nat × Nat) × Universe) :=
  match u.tickStage [] u.flatCoords with
  | Except.error e => Except.error e
  | Except.ok (u', changed) => Except.ok (changed, u'.commitChanged changed)

/-- `Universe.to_list`: the matrix of `cell.is_alive` values, row by row.
The method only reads `self._board`, so the universe it leaves behind is
the one it was given; the pair makes that explicit. -/
def Universe.to_list (u : Universe) : List (List Bool) × Universe :=
  (u.board.map (fun row => row.map Cell.is_alive), u)

/-- Convenience extractors: the changed list and the universe tick
returned (used to state concrete, decidable facts about whole ticks). -/
def Universe.tickChanged (u : Universe) : List (Nat × Nat) :=
  match u.tick with
  | Except.ok (cs, _) => cs
  | Except.error _ => []

def Universe.tickNext (u : Universe) : Universe :=
  match u.tick with
  | Except.ok (_, v) => v
  | Except.error _ => u

/-- A universe seeded with a horizontal blinker: three live cells
`(x₀-1, y₀), (x₀, y₀), (x₀+1, y₀)`, written through the seeding surface
`universe[x, y] = True` like the config loader does. -/
def blinkerSeed (w h x₀ y₀ : Nat) : Universe :=
  (((Universe.init w h).setOk ((x₀ - 1 : Nat) : Int) (y₀ : Int) true).setOk
    (x₀ : Int) (y₀ : Int) true).setOk ((x₀ + 1 : Nat) : Int) (y₀ : Int) true

/-- Committed aliveness of the cell at `(x, y)` (`cell.is_alive`). -/
def Universe.aliveAt (u : Universe) (x y : Nat) : Bool :=
  (u.cellAtD x y).is_alive

/-- During a tick, the cell at `p` is staged (and hence appended to
`changed`) exactly when it is alive, or dead with three live neighbours:
the live branch always stages and appends, the dead branch only on
`n == 3`. -/
def Universe.stagedQ (u : Universe) (p : Nat × Nat) : Bool :=
  u.aliveAt p.1 p.2 || (u.get_alive_count p.1 p.2 == 3)

/-- The value a staged cell's `_state_dirty` receives during a tick
(`int` of the staged boolean); only meaningful when `stagedQ` holds. -/
def Universe.nextBit (u : Universe) (p : Nat × Nat) : Nat :=
  if u.aliveAt p.1 p.2 then
    (if u.get_alive_count p.1 p.2 == 2 || u.get_alive_count p.1 p.2 == 3
      then 1 else 0)
  else 1

/-- The Conway rule applied to the pre-tick generation: a live cell
survives on 2 or 3 live neighbours, a dead cell is born on exactly 3. -/
def Universe.conwayNext (u : Universe) (x y : Nat) : Bool :=
  if u.aliveAt x y then
    u.get_alive_count x y == 2 || u.get_alive_count x y == 3
  else
    u.get_alive_count x y == 3

/-- Stable state: no cell has a stage pending (the invariant between
public API calls). -/
def Universe.Clean (u : Universe) : Prop :=
  ∀ row ∈ u.board, ∀ c ∈ row, c.state_dirty = none

/-- Every committed state is an `int` 0 or 1 (true of every universe the
public API can produce; rules out the `None` state a bare
`Cell.commit` with no stage can leave behind). -/
def Universe.Bool01 (u : Universe) : Prop :=
  ∀ row ∈ u.board, ∀ c ∈ row, c.state = some 0 ∨ c.state = some 1

/-- The board is a `height × width` rectangle (as built by the
constructor). -/
def Universe.Rect (u : Universe) : Prop :=
  u.board.length = u.height ∧ ∀ row ∈ u.board, row.length = u.width

/-- `p` is the coordinate of an actual board cell. -/
def Universe.InBoard (u : Universe) (p : Nat × Nat) : Prop :=
  p.2 < u.board.length ∧ p.1 < (u.board.getD p.2 []).length

instance {ε α : Type _} [DecidableEq ε] [DecidableEq α] :
    DecidableEq (Except ε α)
  | Except.ok a, Except.ok b =>
    if h : a = b then Decidable.isTrue (by rw [h])
    else Decidable.isFalse (fun hc => h (Except.ok.inj hc))
  | Except.ok _, Except.error _ =>
    Decidable.isFalse (fun hc => Except.noConfusion hc)
  | Except.error _, Except.ok _ =>
    Decidable.isFalse (fun hc => Except.noConfusion hc)
  | Except.error e, Except.error f =>
    if h : e = f then Decidable.isTrue (by rw [h])
    else Decidable.isFalse (fun hc => h (Except.error.inj hc))

instance (u : Universe) : Decidable u.Clean := by
  unfold Universe.Clean
  infer_instance

instance (u : Universe) : Decidable u.Bool01 := by
  unfold Universe.Bool01
  infer_instance

instance (u : Universe) : Decidable u.Rect := by
  unfold Universe.Rect
  infer_instance

instance (u : Universe) (p : Nat × Nat) : Decidable (u.InBoard p) := by
  unfold Universe.InBoard
  infer_instance

/-! ### Basic lemmas about the list helpers -/

theorem length_listModify (f : α → α) :
    ∀ (n : Nat) (l : List α), (listModify f n l).length = l.length := by
  intro n l
  induction l generalizing n with
  | nil => cases n <;> rfl
  | cons a as ih =>
    cases n with
    | zero => rfl
    | succ m => simpa [listModify] using ih m

theorem listModify_oob (f : α → α) :
    ∀ (n : Nat) (l : List α), l.length ≤ n → listModify f n l = l := by
  intro n l
  induction l generalizing n with
  | nil => intro _; cases n <;> rfl
  | cons a as ih =>
    cases n with
    | zero => intro h; simp at h
    | succ m =>
      intro h
      simp only [listModify, List.cons.injEq, true_and]
      exact ih m (by simpa using h)

theorem getD_listModify_self (f : α → α) (d : α) :
    ∀ (n : Nat) (l : List α), n < l.length →
      (listModify f n l).getD n d = f (l.getD n d) := by
  intro n l
  induction l generalizing n with
  | nil => intro h; simp at h
  | cons a as ih =>
    cases n with
    | zero => intro _; rfl
    | succ m =>
      intro h
      simpa [listModify] using ih m (by simpa using h)

theorem getD_listModify_ne (f : α → α) (d : α) :
    ∀ (m n : Nat) (l : List α), m ≠ n →
      (listModify f n l).getD m d = l.getD m d := by
  intro m n l
  induction l generalizing m n with
  | nil => intro _; cases n <;> rfl
  | cons a as ih =>
    cases n with
    | zero =>
      intro h
      cases m with
      | zero => omega
      | succ k => rfl
    | succ n' =>
      intro h
      cases m with
      | zero => rfl
      | succ k => simpa [listModify] using ih k n' (by omega)

/-! ### Shape and cell-access lemmas for `modifyCell` -/

theorem Universe.width_modifyCell (u : Universe) (x y : Nat) (f : Cell → Cell) :
    (u.modifyCell x y f).width = u.width := rfl

theorem Universe.height_modifyCell (u : Universe) (x y : Nat) (f : Cell → Cell) :
    (u.modifyCell x y f).height = u.height := rfl

theorem Universe.board_length_modifyCell (u : Universe) (x y : Nat)
    (f : Cell → Cell) :
    (u.modifyCell x y f).board.length = u.board.length := by
  simp [Universe.modifyCell, length_listModify]

theorem Universe.row_length_modifyCell (u : Universe) (x y : Nat)
    (f : Cell → Cell) (i : Nat) :
    ((u.modifyCell x y f).board.getD i []).length =
      (u.board.getD i []).length := by
  unfold Universe.modifyCell
  rcases eq_or_ne i y with rfl | hne
  · rcases Nat.lt_or_ge i u.board.length with hy | hy
    · rw [getD_listModify_self _ _ _ _ hy, length_listModify]
    · rw [listModify_oob _ _ _ hy]
  · rw [getD_listModify_ne _ _ _ _ _ hne]

theorem Universe.cellAtD_modifyCell_self (u : Universe) (x y : Nat)
    (f : Cell → Cell) (hy : y < u.board.length)
    (hx : x < (u.board.getD y []).length) :
    (u.modifyCell x y f).cellAtD x y = f (u.cellAtD x y) := by
  unfold Universe.modifyCell Universe.cellAtD
  simp only
  rw [getD_listModify_self _ _ _ _ hy, getD_listModify_self _ _ _ _ hx]

theorem Universe.cellAtD_modifyCell_ne (u : Universe) (x y : Nat)
    (f : Cell → Cell) (a b : Nat) (h : (a, b) ≠ (x, y)) :
    (u.modifyCell x y f).cellAtD a b = u.cellAtD a b := by
  unfold Universe.modifyCell Universe.cellAtD
  simp only
  rcases eq_or_ne b y with rfl | hb
  · have ha : a ≠ x := by
      intro haeq; exact h (by simp [haeq])
    rcases Nat.lt_or_ge b u.board.length with hy | hy
    · rw [getD_listModify_self _ _ _ _ hy, getD_listModify_ne _ _ _ _ _ ha]
    · rw [listModify_oob _ _ _ hy]
  · rw [getD_listModify_ne _ _ _ _ _ hb]
/-! ### Congruence: neighbour counts and aliveness only read committed
states (plus the construction-time `width`/`height`) -/

theorem Cell.is_alive_congr {c d : Cell} (h : c.state = d.state) :
    c.is_alive = d.is_alive := by
  simp [Cell.is_alive, h]

theorem Universe.aliveAt_congr {u v : Universe}
    (hs : ∀ a b, (v.cellAtD a b).state = (u.cellAtD a b).state)
    (x y : Nat) : v.aliveAt x y = u.aliveAt x y :=
  Cell.is_alive_congr (hs x y)

theorem Universe.get_alive_count_congr {u v : Universe}
    (hw : v.width = u.width) (hh : v.height = u.height)
    (hs : ∀ a b, (v.cellAtD a b).state = (u.cellAtD a b).state)
    (x y : Nat) : v.get_alive_count x y = u.get_alive_count x y := by
  have hns : ∀ nb, v.neighbourState x y nb = u.neighbourState x y nb := by
    intro nb
    simp only [Universe.neighbourState, Universe.get_neighbour, hw, hh]
    by_cases hcond : (-1 < (x : Int) + nb.x ∧ (x : Int) + nb.x < (u.width : Int) ∧
        -1 < (y : Int) + nb.y ∧ (y : Int) + nb.y < (u.height : Int))
    · simp only [if_pos hcond]
      exact congrArg (fun s => Option.getD s 0) (hs _ _)
    · simp only [if_neg hcond]
  unfold Universe.get_alive_count
  rw [List.map_congr_left fun nb _ => hns nb]

/-! ### Pointwise forms of the invariants -/

theorem Universe.mem_of_lt (u : Universe) {x y : Nat}
    (hy : y < u.board.length) (hx : x < (u.board.getD y []).length) :
    u.board.getD y [] ∈ u.board ∧ u.cellAtD x y ∈ u.board.getD y [] := by
  constructor
  · rw [List.getD_eq_getElem _ _ hy]
    exact List.getElem_mem hy
  · unfold Universe.cellAtD
    rw [List.getD_eq_getElem _ _ hx]
    exact List.getElem_mem hx

theorem Universe.Clean.dirty_eq {u : Universe} (h : u.Clean) (x y : Nat) :
    (u.cellAtD x y).state_dirty = none := by
  rcases Nat.lt_or_ge y u.board.length with hy | hy
  · rcases Nat.lt_or_ge x (u.board.getD y []).length with hx | hx
    · obtain ⟨hrow, hcell⟩ := u.mem_of_lt hy hx
      exact h _ hrow _ hcell
    · unfold Universe.cellAtD
      rw [List.getD_eq_default _ _ hx]
      rfl
  · unfold Universe.cellAtD
    rw [List.getD_eq_default _ _ hy, List.getD_eq_default _ _ (Nat.zero_le x)]
    rfl

theorem Universe.clean_of_pointwise {u : Universe}
    (h : ∀ x y, (u.cellAtD x y).state_dirty = none) : u.Clean := by
  intro row hrow c hc
  obtain ⟨i, hi, rfl⟩ := List.mem_iff_getElem.mp hrow
  obtain ⟨j, hj, rfl⟩ := List.mem_iff_getElem.mp hc
  have hthis := h j i
  unfold Universe.cellAtD at hthis
  rw [List.getD_eq_getElem _ _ hi] at hthis
  rw [List.getD_eq_getElem _ _ hj] at hthis
  exact hthis

theorem Universe.Bool01.state_eq {u : Universe} (h : u.Bool01) (x y : Nat) :
    (u.cellAtD x y).state = some 0 ∨ (u.cellAtD x y).state = some 1 := by
  rcases Nat.lt_or_ge y u.board.length with hy | hy
  · rcases Nat.lt_or_ge x (u.board.getD y []).length with hx | hx
    · obtain ⟨hrow, hcell⟩ := u.mem_of_lt hy hx
      exact h _ hrow _ hcell
    · unfold Universe.cellAtD
      rw [List.getD_eq_default _ _ hx]
      exact Or.inl rfl
  · unfold Universe.cellAtD
    rw [List.getD_eq_default _ _ hy, List.getD_eq_default _ _ (Nat.zero_le x)]
    exact Or.inl rfl

theorem Universe.bool01_of_pointwise {u : Universe}
    (h : ∀ x y, (u.cellAtD x y).state = some 0 ∨
      (u.cellAtD x y).state = some 1) : u.Bool01 := by
  intro row hrow c hc
  obtain ⟨i, hi, rfl⟩ := List.mem_iff_getElem.mp hrow
  obtain ⟨j, hj, rfl⟩ := List.mem_iff_getElem.mp hc
  have hthis := h j i
  unfold Universe.cellAtD at hthis
  rw [List.getD_eq_getElem _ _ hi] at hthis
  rw [List.getD_eq_getElem _ _ hj] at hthis
  exact hthis

/-! ### The flat iteration order -/

theorem Universe.mem_flatCoords {u : Universe} {p : Nat × Nat} :
    p ∈ u.flatCoords ↔ u.InBoard p := by
  obtain ⟨x, y⟩ := p
  simp only [Universe.flatCoords, Universe.InBoard, List.mem_flatMap,
    List.mem_map, List.mem_range, Prod.mk.injEq]
  constructor
  · rintro ⟨y', hy', x', hx', rfl, rfl⟩
    exact ⟨hy', hx'⟩
  · rintro ⟨hy, hx⟩
    exact ⟨y, hy, x, hx, rfl, rfl⟩

theorem Universe.nodup_flatCoords (u : Universe) : u.flatCoords.Nodup := by
  unfold Universe.flatCoords
  rw [List.nodup_flatMap]
  constructor
  · intro y _
    exact (List.nodup_range _).map (fun a b hab => by
      simpa using congrArg Prod.fst hab)
  · have hlt := List.pairwise_lt_range (u.board.length)
    refine hlt.imp ?_
    intro a b hab p hpa hpb
    simp only [List.mem_map] at hpa hpb
    obtain ⟨xa, _, rfl⟩ := hpa
    obtain ⟨xb, _, hba⟩ := hpb
    have := congrArg Prod.snd hba
    simp at this
    omega

theorem Universe.InBoard_modifyCell (u : Universe) (x y : Nat)
    (f : Cell → Cell) (q : Nat × Nat) :
    (u.modifyCell x y f).InBoard q ↔ u.InBoard q := by
  unfold Universe.InBoard
  rw [Universe.board_length_modifyCell, Universe.row_length_modifyCell]

theorem Universe.flatCoords_congr {u v : Universe}
    (h1 : v.board.length = u.board.length)
    (h2 : ∀ i, (v.board.getD i []).length = (u.board.getD i []).length) :
    v.flatCoords = u.flatCoords := by
  unfold Universe.flatCoords
  rw [h1]
  exact congrArg _ (funext fun y => by rw [h2 y])

/-! ### The staging loop: what one pass over the flat cell list does.

The reference universe `u` is the committed pre-tick generation; `v` is
the mid-loop universe (same states, some cells already staged).  The loop
never observes a staged value: every decision reads committed states only,
which is the heart of the "single consistent prior generation"
guarantee. -/

theorem Universe.tickStage_spec (u : Universe) :
    ∀ (ps : List (Nat × Nat)) (v : Universe) (acc : List (Nat × Nat)),
      v.width = u.width → v.height = u.height →
      (∀ a b, (v.cellAtD a b).state = (u.cellAtD a b).state) →
      (∀ p ∈ ps, v.InBoard p) →
      (∀ p ∈ ps, (v.cellAtD p.1 p.2).state_dirty = none) →
      ps.Nodup →
      ∃ w, Universe.tickStage v acc ps =
          Except.ok (w, acc ++ ps.filter u.stagedQ) ∧
        w.width = v.width ∧ w.height = v.height ∧
        w.board.length = v.board.length ∧
        (∀ i, (w.board.getD i []).length = (v.board.getD i []).length) ∧
        (∀ a b, w.cellAtD a b =
          if (a, b) ∈ ps ∧ u.stagedQ (a, b) = true
          then { v.cellAtD a b with state_dirty := some (u.nextBit (a, b)) }
          else v.cellAtD a b) := by
  intro ps
  induction ps with
  | nil =>
    intro v acc _ _ _ _ _ _
    refine ⟨v, by simp [Universe.tickStage], rfl, rfl, rfl, fun _ => rfl, ?_⟩
    intro a b
    simp
  | cons p rest ih =>
    obtain ⟨x, y⟩ := p
    intro v acc hw hh hs hib hdirty hnd
    have hibp : v.InBoard (x, y) := hib _ (List.mem_cons_self _ _)
    have hdp : (v.cellAtD x y).state_dirty = none :=
      hdirty _ (List.mem_cons_self _ _)
    have hcount : v.get_alive_count x y = u.get_alive_count x y :=
      Universe.get_alive_count_congr hw hh hs x y
    have halive : (v.cellAtD x y).is_alive = u.aliveAt x y :=
      Cell.is_alive_congr (hs x y)
    have hxnotin : (x, y) ∉ rest := (List.nodup_cons.mp hnd).1
    have hndrest : rest.Nodup := (List.nodup_cons.mp hnd).2
    -- common continuation for the two branches that stage the head cell
    have staged_case :
        ∀ bv : Bool,
          (if bv then 1 else 0) = u.nextBit (x, y) →
          u.stagedQ (x, y) = true →
          ∃ w, Universe.tickStage
              (v.modifyCell x y (fun _ =>
                { v.cellAtD x y with state_dirty := some (if bv then 1 else 0) }))
              (acc ++ [(x, y)]) rest =
            Except.ok (w, acc ++ ((x, y) :: rest).filter u.stagedQ) ∧
          w.width = v.width ∧ w.height = v.height ∧
          w.board.length = v.board.length ∧
          (∀ i, (w.board.getD i []).length = (v.board.getD i []).length) ∧
          (∀ a b, w.cellAtD a b =
            if (a, b) ∈ (x, y) :: rest ∧ u.stagedQ (a, b) = true
            then { v.cellAtD a b with state_dirty := some (u.nextBit (a, b)) }
            else v.cellAtD a b) := by
      intro bv hbv hQ
      set c' : Cell :=
        { v.cellAtD x y with state_dirty := some (if bv then 1 else 0) } with hc'
      set v' : Universe := v.modifyCell x y (fun _ => c') with hv'
      have hself : v'.cellAtD x y = c' :=
        Universe.cellAtD_modifyCell_self v x y _ hibp.1 hibp.2
      have hother : ∀ a b, (a, b) ≠ (x, y) → v'.cellAtD a b = v.cellAtD a b :=
        fun a b hab => Universe.cellAtD_modifyCell_ne v x y _ a b hab
      have hs' : ∀ a b, (v'.cellAtD a b).state = (u.cellAtD a b).state := by
        intro a b
        by_cases hab : (a, b) = (x, y)
        · rw [Prod.mk.injEq] at hab
          obtain ⟨rfl, rfl⟩ := hab
          rw [hself, hc']
          exact hs a b
        · rw [hother a b hab]
          exact hs a b
      have hib' : ∀ q ∈ rest, v'.InBoard q := fun q hq =>
        (Universe.InBoard_modifyCell v x y _ q).mpr
          (hib q (List.mem_cons_of_mem _ hq))
      have hdirty' : ∀ q ∈ rest, (v'.cellAtD q.1 q.2).state_dirty = none := by
        intro q hq
        obtain ⟨a, b⟩ := q
        have hab : (a, b) ≠ (x, y) := fun h => hxnotin (h ▸ hq)
        rw [hother a b hab]
        exact hdirty _ (List.mem_cons_of_mem _ hq)
      obtain ⟨w, hrun, hww, hwh, hwl, hwrl, hwcell⟩ :=
        ih v' (acc ++ [(x, y)]) (by rw [hv', Universe.width_modifyCell]; exact hw)
          (by rw [hv', Universe.height_modifyCell]; exact hh) hs' hib' hdirty' hndrest
      refine ⟨w, ?_, ?_, ?_, ?_, ?_, ?_⟩
      · rw [hrun, List.filter_cons, if_pos hQ]
        simp [List.append_assoc]
      · rw [hww, hv', Universe.width_modifyCell]
      · rw [hwh, hv', Universe.height_modifyCell]
      · rw [hwl, hv', Universe.board_length_modifyCell]
      · intro i
        rw [hwrl i, hv', Universe.row_length_modifyCell]
      · intro a b
        rw [hwcell a b]
        by_cases hab : (a, b) = (x, y)
        · rw [Prod.mk.injEq] at hab
          obtain ⟨rfl, rfl⟩ := hab
          have h1 : ¬((a, b) ∈ rest ∧ u.stagedQ (a, b) = true) :=
            fun hmem => hxnotin hmem.1
          have h2 : (a, b) ∈ (a, b) :: rest ∧ u.stagedQ (a, b) = true :=
            ⟨List.mem_cons_self _ _, hQ⟩
          rw [if_neg h1, hself, hc', if_pos h2, hbv]
        · by_cases hmem : (a, b) ∈ rest ∧ u.stagedQ (a, b) = true
          · have h2 : (a, b) ∈ (x, y) :: rest ∧ u.stagedQ (a, b) = true :=
              ⟨List.mem_cons_of_mem _ hmem.1, hmem.2⟩
            rw [if_pos hmem, if_pos h2, hother a b hab]
          · have h2 : ¬((a, b) ∈ (x, y) :: rest ∧ u.stagedQ (a, b) = true) :=
              fun hcons =>
                hmem ⟨(List.mem_cons.mp hcons.1).resolve_left hab, hcons.2⟩
            rw [if_neg hmem, hother a b hab, if_neg h2]
    -- now the three source branches
    cases hAu : u.aliveAt x y with
    | true =>
      have hQ : u.stagedQ (x, y) = true := by
        simp [Universe.stagedQ, hAu]
      have hbv : (if (u.get_alive_count x y == 2 ||
          u.get_alive_count x y == 3 : Bool) then 1 else 0) = u.nextBit (x, y) := by
        unfold Universe.nextBit
        rw [if_pos hAu]
      obtain ⟨w, hrun, h1, h2, h3, h4, h5⟩ := staged_case _ hbv hQ
      refine ⟨w, ?_, h1, h2, h3, h4, h5⟩
      simp only [Universe.tickStage]
      rw [halive, hAu, if_pos rfl]
      unfold Cell.set_is_alive
      rw [if_pos hdp, hcount]
      exact hrun
    | false =>
      cases hc3 : (u.get_alive_count x y == 3 : Bool) with
      | true =>
        have hQ : u.stagedQ (x, y) = true := by
          simp [Universe.stagedQ, hc3]
        have hAu' : ¬(u.aliveAt x y = true) := by
          rw [hAu]
          exact Bool.false_ne_true
        have hbv : (if (true : Bool) then 1 else 0) = u.nextBit (x, y) := by
          unfold Universe.nextBit
          rw [if_neg hAu']
          rfl
        obtain ⟨w, hrun, h1, h2, h3, h4, h5⟩ := staged_case _ hbv hQ
        refine ⟨w, ?_, h1, h2, h3, h4, h5⟩
        simp only [Universe.tickStage]
        have hfa : ¬((false : Bool) = true) := Bool.false_ne_true
        rw [halive, hAu, if_neg hfa, hcount, hc3, if_pos rfl]
        unfold Cell.set_is_alive
        rw [if_pos hdp]
        exact hrun
      | false =>
        have hQ : u.stagedQ (x, y) = false := by
          simp [Universe.stagedQ, hAu, hc3]
        obtain ⟨w, hrun, h1, h2, h3, h4, h5⟩ :=
          ih v acc hw hh hs (fun q hq => hib q (List.mem_cons_of_mem _ hq))
            (fun q hq => hdirty q (List.mem_cons_of_mem _ hq)) hndrest
        refine ⟨w, ?_, h1, h2, h3, h4, ?_⟩
        · simp only [Universe.tickStage]
          have hfa : ¬((false : Bool) = true) := Bool.false_ne_true
          have hQ' : ¬(u.stagedQ (x, y) = true) := by
            rw [hQ]
            exact Bool.false_ne_true
          rw [halive, hAu, if_neg hfa, hcount, hc3, if_neg hfa, hrun,
            List.filter_cons, if_neg hQ']
        · intro a b
          rw [h5 a b]
          by_cases hab : (a, b) = (x, y)
          · rw [Prod.mk.injEq] at hab
            obtain ⟨rfl, rfl⟩ := hab
            have h1 : ¬((a, b) ∈ rest ∧ u.stagedQ (a, b) = true) :=
              fun hmem => hxnotin hmem.1
            have h2 : ¬((a, b) ∈ (a, b) :: rest ∧ u.stagedQ (a, b) = true) :=
              fun hmem => by
                rw [hQ] at hmem
                exact Bool.false_ne_true hmem.2
            rw [if_neg h1, if_neg h2]
          · by_cases hmem : (a, b) ∈ rest ∧ u.stagedQ (a, b) = true
            · have h2 : (a, b) ∈ (x, y) :: rest ∧ u.stagedQ (a, b) = true :=
                ⟨List.mem_cons_of_mem _ hmem.1, hmem.2⟩
              rw [if_pos hmem, if_pos h2]
            · have h2 : ¬((a, b) ∈ (x, y) :: rest ∧ u.stagedQ (a, b) = true) :=
                fun hcons =>
                  hmem ⟨(List.mem_cons.mp hcons.1).resolve_left hab, hcons.2⟩
              rw [if_neg hmem, if_neg h2]

/-! ### The commit loop -/

theorem Universe.commitChanged_spec :
    ∀ (cs : List (Nat × Nat)) (v : Universe),
      (∀ p ∈ cs, v.InBoard p) → cs.Nodup →
      (Universe.commitChanged v cs).width = v.width ∧
      (Universe.commitChanged v cs).height = v.height ∧
      (Universe.commitChanged v cs).board.length = v.board.length ∧
      (∀ i, ((Universe.commitChanged v cs).board.getD i []).length =
        (v.board.getD i []).length) ∧
      (∀ a b, (Universe.commitChanged v cs).cellAtD a b =
        if (a, b) ∈ cs then (v.cellAtD a b).commit else v.cellAtD a b) := by
  intro cs
  induction cs with
  | nil =>
    intro v _ _
    refine ⟨rfl, rfl, rfl, fun _ => rfl, ?_⟩
    intro a b
    simp [Universe.commitChanged]
  | cons p rest ih =>
    obtain ⟨x, y⟩ := p
    intro v hib hnd
    have hibp := hib _ (List.mem_cons_self _ _)
    have hxnotin : (x, y) ∉ rest := (List.nodup_cons.mp hnd).1
    have hndrest := (List.nodup_cons.mp hnd).2
    set v' : Universe := v.modifyCell x y Cell.commit with hv'
    have hself : v'.cellAtD x y = (v.cellAtD x y).commit :=
      Universe.cellAtD_modifyCell_self v x y _ hibp.1 hibp.2
    have hother : ∀ a b, (a, b) ≠ (x, y) → v'.cellAtD a b = v.cellAtD a b :=
      fun a b hab => Universe.cellAtD_modifyCell_ne v x y _ a b hab
    have hib' : ∀ q ∈ rest, v'.InBoard q := fun q hq =>
      (Universe.InBoard_modifyCell v x y _ q).mpr
        (hib q (List.mem_cons_of_mem _ hq))
    obtain ⟨h1, h2, h3, h4, h5⟩ := ih v' hib' hndrest
    have hstep : Universe.commitChanged v ((x, y) :: rest) =
        Universe.commitChanged v' rest := rfl
    refine ⟨?_, ?_, ?_, ?_, ?_⟩
    · rw [hstep, h1, hv', Universe.width_modifyCell]
    · rw [hstep, h2, hv', Universe.height_modifyCell]
    · rw [hstep, h3, hv', Universe.board_length_modifyCell]
    · intro i
      rw [hstep, h4 i, hv', Universe.row_length_modifyCell]
    · intro a b
      rw [hstep, h5 a b]
      by_cases hab : (a, b) = (x, y)
      · rw [Prod.mk.injEq] at hab
        obtain ⟨rfl, rfl⟩ := hab
        have h6 : ¬((a, b) ∈ rest) := hxnotin
        have h7 : (a, b) ∈ (a, b) :: rest := List.mem_cons_self _ _
        rw [if_neg h6, hself, if_pos h7]
      · by_cases hmem : (a, b) ∈ rest
        · have h7 : (a, b) ∈ (x, y) :: rest := List.mem_cons_of_mem _ hmem
          rw [if_pos hmem, if_pos h7, hother a b hab]
        · have h7 : ¬((a, b) ∈ (x, y) :: rest) := fun hcons =>
            hmem ((List.mem_cons.mp hcons).resolve_left hab)
          rw [if_neg hmem, if_neg h7, hother a b hab]

/-! ### What one whole `tick()` does to a clean universe -/

theorem Universe.tick_spec (u : Universe) (hc : u.Clean) :
    ∃ u', u.tick = Except.ok (u.flatCoords.filter u.stagedQ, u') ∧
      u'.width = u.width ∧ u'.height = u.height ∧
      u'.board.length = u.board.length ∧
      (∀ i, (u'.board.getD i []).length = (u.board.getD i []).length) ∧
      (∀ a b, u'.cellAtD a b =
        if (a, b) ∈ u.flatCoords ∧ u.stagedQ (a, b) = true
        then { u.cellAtD a b with state := some (u.nextBit (a, b)), state_dirty := none }
        else u.cellAtD a b) := by
  obtain ⟨w, hrun, hww, hwh, hwl, hwrl, hwcell⟩ :=
    u.tickStage_spec u.flatCoords u [] rfl rfl (fun _ _ => rfl)
      (fun p hp => Universe.mem_flatCoords.mp hp)
      (fun p _ => hc.dirty_eq p.1 p.2)
      u.nodup_flatCoords
  set cs : List (Nat × Nat) := u.flatCoords.filter u.stagedQ with hcs
  have hibcs : ∀ p ∈ cs, w.InBoard p := by
    intro p hp
    have hin : u.InBoard p :=
      Universe.mem_flatCoords.mp (List.mem_of_mem_filter hp)
    unfold Universe.InBoard
    rw [hwl, hwrl]
    exact hin
  have hndcs : cs.Nodup := (u.nodup_flatCoords).filter _
  obtain ⟨k1, k2, k3, k4, k5⟩ := Universe.commitChanged_spec cs w hibcs hndcs
  refine ⟨Universe.commitChanged w cs, ?_, ?_, ?_, ?_, ?_, ?_⟩
  · unfold Universe.tick
    rw [hrun]
    rw [List.nil_append]
  · rw [k1, hww]
  · rw [k2, hwh]
  · rw [k3, hwl]
  · intro i
    rw [k4 i, hwrl i]
  · intro a b
    rw [k5 a b]
    by_cases hmemcs : (a, b) ∈ cs
    · have hmq : (a, b) ∈ u.flatCoords ∧ u.stagedQ (a, b) = true := by
        have := List.mem_filter.mp hmemcs
        exact ⟨this.1, this.2⟩
      rw [if_pos hmemcs, hwcell a b, if_pos hmq, if_pos hmq]
      rfl
    · have hnq : ¬((a, b) ∈ u.flatCoords ∧ u.stagedQ (a, b) = true) := by
        intro hmem
        exact hmemcs (List.mem_filter.mpr ⟨hmem.1, hmem.2⟩)
      rw [if_neg hmemcs, hwcell a b, if_neg hnq, if_neg hnq]

/-! ### Pointwise corollaries of `tick_spec` -/

theorem Universe.nextBit_zero_or_one (u : Universe) (p : Nat × Nat) :
    u.nextBit p = 0 ∨ u.nextBit p = 1 := by
  unfold Universe.nextBit
  split_ifs <;> simp

theorem Universe.tick_alive (u : Universe) (hc : u.Clean)
    {changed : List (Nat × Nat)} {u' : Universe}
    (ht : u.tick = Except.ok (changed, u')) (a b : Nat)
    (hin : u.InBoard (a, b)) : u'.aliveAt a b = u.conwayNext a b := by
  obtain ⟨u'', hrun, _, _, _, _, hcell⟩ := u.tick_spec hc
  rw [ht] at hrun
  injection hrun with hpair
  injection hpair with hcs hu
  subst hu
  have hmem : (a, b) ∈ u.flatCoords := Universe.mem_flatCoords.mpr hin
  have h := hcell a b
  cases hA : u.aliveAt a b with
  | true =>
    have hq : u.stagedQ (a, b) = true := by
      simp [Universe.stagedQ, hA]
    rw [if_pos ⟨hmem, hq⟩] at h
    unfold Universe.aliveAt Universe.conwayNext
    rw [h, if_pos hA]
    unfold Cell.is_alive Universe.nextBit
    rw [if_pos hA]
    cases hcnt : (u.get_alive_count a b == 2 || u.get_alive_count a b == 3 :
        Bool) <;> simp [hcnt]
  | false =>
    have hA' : ¬(u.aliveAt a b = true) := by
      rw [hA]
      exact Bool.false_ne_true
    cases hq : u.stagedQ (a, b) with
    | true =>
      have hn3 : (u.get_alive_count a b == 3 : Bool) = true := by
        unfold Universe.stagedQ at hq
        rw [hA] at hq
        simpa using hq
      rw [if_pos ⟨hmem, hq⟩] at h
      unfold Universe.aliveAt Universe.conwayNext
      rw [h, if_neg hA']
      unfold Cell.is_alive Universe.nextBit
      rw [if_neg hA', hn3]
      rfl
    | false =>
      have hq' : ¬((a, b) ∈ u.flatCoords ∧ u.stagedQ (a, b) = true) := by
        intro hcon
        rw [hq] at hcon
        exact Bool.false_ne_true hcon.2
      have hn3 : (u.get_alive_count a b == 3 : Bool) = false := by
        unfold Universe.stagedQ at hq
        rw [hA] at hq
        simpa using hq
      rw [if_neg hq'] at h
      unfold Universe.aliveAt Universe.conwayNext
      rw [h, if_neg hA', hn3]
      unfold Universe.aliveAt at hA
      rw [hA]

theorem Universe.tick_clean (u : Universe) (hc : u.Clean)
    {changed : List (Nat × Nat)} {u' : Universe}
    (ht : u.tick = Except.ok (changed, u')) : u'.Clean := by
  obtain ⟨u'', hrun, _, _, _, _, hcell⟩ := u.tick_spec hc
  rw [ht] at hrun
  injection hrun with hpair
  injection hpair with hcs hu
  subst hu
  apply Universe.clean_of_pointwise
  intro x y
  rw [hcell x y]
  by_cases hcond : (x, y) ∈ u.flatCoords ∧ u.stagedQ (x, y) = true
  · rw [if_pos hcond]
  · rw [if_neg hcond]
    exact hc.dirty_eq x y

theorem Universe.tick_bool01 (u : Universe) (hc : u.Clean) (hb : u.Bool01)
    {changed : List (Nat × Nat)} {u' : Universe}
    (ht : u.tick = Except.ok (changed, u')) : u'.Bool01 := by
  obtain ⟨u'', hrun, _, _, _, _, hcell⟩ := u.tick_spec hc
  rw [ht] at hrun
  injection hrun with hpair
  injection hpair with hcs hu
  subst hu
  apply Universe.bool01_of_pointwise
  intro x y
  rw [hcell x y]
  by_cases hcond : (x, y) ∈ u.flatCoords ∧ u.stagedQ (x, y) = true
  · rw [if_pos hcond]
    rcases u.nextBit_zero_or_one (x, y) with h0 | h1
    · exact Or.inl (by rw [h0])
    · exact Or.inr (by rw [h1])
  · rw [if_neg hcond]
    exact hb.state_eq x y

/-! ### The freshly constructed universe -/

theorem Universe.init_cellAtD (w h x y : Nat) :
    (Universe.init w h).cellAtD x y =
      if x < w ∧ y < h
      then { state := some 0, state_dirty := none, pos_x := x, pos_y := y }
      else defaultCell := by
  unfold Universe.init Universe.cellAtD
  simp only
  by_cases hy : y < h
  · have hylen : y < ((List.range h).map (fun row_ptr =>
        (List.range w).map (fun col_ptr =>
          ({ state := some 0, state_dirty := none,
             pos_x := col_ptr, pos_y := row_ptr } : Cell)))).length := by
      simpa using hy
    rw [List.getD_eq_getElem _ _ hylen]
    simp only [List.getElem_map, List.getElem_range]
    by_cases hx : x < w
    · have hxlen : x < ((List.range w).map (fun col_ptr =>
          ({ state := some 0, state_dirty := none,
             pos_x := col_ptr, pos_y := y } : Cell))).length := by
        simpa using hx
      rw [List.getD_eq_getElem _ _ hxlen]
      simp only [List.getElem_map, List.getElem_range]
      rw [if_pos ⟨hx, hy⟩]
    · rw [List.getD_eq_default _ _ (by simpa using Nat.le_of_not_lt hx),
        if_neg (fun hcon => hx hcon.1)]
  · have hrow := List.getD_eq_default ((List.range h).map (fun row_ptr =>
        (List.range w).map (fun col_ptr =>
          ({ state := some 0, state_dirty := none,
             pos_x := col_ptr, pos_y := row_ptr } : Cell)))) ([] : List Cell)
      (by simpa using Nat.le_of_not_lt hy)
    rw [hrow, if_neg (fun hcon => hy hcon.2)]
    simp

theorem Universe.init_board_length (w h : Nat) :
    (Universe.init w h).board.length = h := by
  simp [Universe.init]

theorem Universe.init_row_length (w h i : Nat) :
    ((Universe.init w h).board.getD i []).length = if i < h then w else 0 := by
  unfold Universe.init
  simp only
  by_cases hi : i < h
  · have hilen : i < ((List.range h).map (fun row_ptr =>
        (List.range w).map (fun col_ptr =>
          ({ state := some 0, state_dirty := none,
             pos_x := col_ptr, pos_y := row_ptr } : Cell)))).length := by
      simpa using hi
    rw [List.getD_eq_getElem _ _ hilen, if_pos hi]
    simp
  · rw [List.getD_eq_default _ _ (by simpa using Nat.le_of_not_lt hi),
      if_neg hi]
    rfl

theorem Universe.init_clean (w h : Nat) : (Universe.init w h).Clean := by
  apply Universe.clean_of_pointwise
  intro x y
  rw [Universe.init_cellAtD]
  split_ifs <;> rfl

theorem Universe.init_bool01 (w h : Nat) : (Universe.init w h).Bool01 := by
  apply Universe.bool01_of_pointwise
  intro x y
  rw [Universe.init_cellAtD]
  split_ifs <;> exact Or.inl rfl

theorem Universe.init_rect (w h : Nat) : (Universe.init w h).Rect := by
  constructor
  · exact Universe.init_board_length w h
  · intro row hrow
    unfold Universe.init at hrow
    simp only [List.mem_map, List.mem_range] at hrow
    obtain ⟨i, _, rfl⟩ := hrow
    simp [Universe.init]

theorem Universe.init_aliveAt (w h x y : Nat) :
    (Universe.init w h).aliveAt x y = false := by
  unfold Universe.aliveAt
  rw [Universe.init_cellAtD]
  split_ifs <;> rfl

/-! ### Seeding writes (`universe[x, y] = alive`) -/

theorem Universe.setItem_spec (u : Universe) (hc : u.Clean) (x y : Nat)
    (hy : y < u.board.length) (hx : x < (u.board.getD y []).length)
    (alive : Bool) :
    u.setItem (x : Int) (y : Int) alive = Except.ok (u.modifyCell x y
      (fun _ => { u.cellAtD x y with
        state := some (if alive then 1 else 0), state_dirty := none })) := by
  have h1 : (0 ≤ (y : Int) ∧ (y : Int) < (u.board.length : Int)) :=
    ⟨Int.natCast_nonneg y, by exact_mod_cast hy⟩
  have h2 : (0 ≤ (x : Int) ∧ (x : Int) < ((u.board.getD y []).length : Int)) :=
    ⟨Int.natCast_nonneg x, by exact_mod_cast hx⟩
  have hd := hc.dirty_eq x y
  simp only [Universe.setItem, pyIndex, if_pos h1, Int.toNat_natCast,
    if_pos h2, Cell.set_is_alive, if_pos hd]
  rfl

theorem Universe.setItem_pointwise (u : Universe) (hc : u.Clean) (x y : Nat)
    (hy : y < u.board.length) (hx : x < (u.board.getD y []).length)
    (alive : Bool) :
    ∃ u', u.setItem (x : Int) (y : Int) alive = Except.ok u' ∧
      u'.width = u.width ∧ u'.height = u.height ∧
      u'.board.length = u.board.length ∧
      (∀ i, (u'.board.getD i []).length = (u.board.getD i []).length) ∧
      u'.Clean ∧ (u.Bool01 → u'.Bool01) ∧
      (∀ a b, u'.aliveAt a b =
        if (a, b) = (x, y) then alive else u.aliveAt a b) := by
  refine ⟨_, u.setItem_spec hc x y hy hx alive, Universe.width_modifyCell u x y _,
    Universe.height_modifyCell u x y _, Universe.board_length_modifyCell u x y _,
    Universe.row_length_modifyCell u x y _, ?_, ?_, ?_⟩
  · apply Universe.clean_of_pointwise
    intro a b
    by_cases hab : (a, b) = (x, y)
    · rw [Prod.mk.injEq] at hab
      obtain ⟨rfl, rfl⟩ := hab
      rw [Universe.cellAtD_modifyCell_self u a b _ hy hx]
    · rw [Universe.cellAtD_modifyCell_ne u x y _ a b hab]
      exact hc.dirty_eq a b
  · intro hb
    apply Universe.bool01_of_pointwise
    intro a b
    by_cases hab : (a, b) = (x, y)
    · rw [Prod.mk.injEq] at hab
      obtain ⟨rfl, rfl⟩ := hab
      rw [Universe.cellAtD_modifyCell_self u a b _ hy hx]
      cases alive
      · exact Or.inl rfl
      · exact Or.inr rfl
    · rw [Universe.cellAtD_modifyCell_ne u x y _ a b hab]
      exact hb.state_eq a b
  · intro a b
    by_cases hab : (a, b) = (x, y)
    · rw [Prod.mk.injEq] at hab
      obtain ⟨rfl, rfl⟩ := hab
      unfold Universe.aliveAt
      rw [Universe.cellAtD_modifyCell_self u a b _ hy hx, if_pos rfl]
      cases alive <;> rfl
    · unfold Universe.aliveAt
      rw [Universe.cellAtD_modifyCell_ne u x y _ a b hab, if_neg hab]

/-! ### Helpers for the claim theorems -/

theorem Universe.to_list_getD (u : Universe) (x y : Nat) :
    ((u.to_list).1.getD y []).getD x false = u.aliveAt x y := by
  unfold Universe.to_list Universe.aliveAt Universe.cellAtD
  simp only
  by_cases hy : y < u.board.length
  · rw [List.getD_eq_getElem (u.board.map (fun row => row.map Cell.is_alive))
        [] (by simpa using hy)]
    simp only [List.getElem_map]
    rw [List.getD_eq_getElem u.board [] hy]
    by_cases hx : x < (u.board[y]).length
    · rw [List.getD_eq_getElem ((u.board[y]).map Cell.is_alive) false
          (by simpa using hx)]
      simp only [List.getElem_map]
      rw [List.getD_eq_getElem (u.board[y]) defaultCell hx]
    · rw [List.getD_eq_default ((u.board[y]).map Cell.is_alive) false
          (by simpa using Nat.le_of_not_lt hx),
        List.getD_eq_default (u.board[y]) defaultCell (Nat.le_of_not_lt hx)]
      rfl
  · rw [List.getD_eq_default (u.board.map (fun row => row.map Cell.is_alive))
        [] (by simpa using Nat.le_of_not_lt hy),
      List.getD_eq_default u.board [] (Nat.le_of_not_lt hy)]
    simp [defaultCell, Cell.is_alive]

theorem Universe.get_alive_count_expand (u : Universe) (x y : Nat) :
    u.get_alive_count x y =
      u.neighbourState x y Neighbours.top +
      (u.neighbourState x y Neighbours.top_right +
      (u.neighbourState x y Neighbours.right +
      (u.neighbourState x y Neighbours.bottom_right +
      (u.neighbourState x y Neighbours.bottom +
      (u.neighbourState x y Neighbours.bottom_left +
      (u.neighbourState x y Neighbours.left +
      u.neighbourState x y Neighbours.top_left)))))) := by
  simp [Universe.get_alive_count, Neighbours.offsets]

theorem pyIndex_nonneg {len : Nat} {i : Int} (h0 : 0 ≤ i) (h1 : i < (len : Int)) :
    pyIndex len i = some i.toNat := by
  unfold pyIndex
  rw [if_pos ⟨h0, h1⟩]

theorem pyIndex_neg {len : Nat} {i : Int} (h0 : -(len : Int) ≤ i) (h1 : i < 0) :
    pyIndex len i = some ((len : Int) + i).toNat := by
  unfold pyIndex
  rw [if_neg (by omega), if_pos ⟨h0, h1⟩]

theorem pyIndex_lt {len : Nat} {i : Int} {r : Nat} (h : pyIndex len i = some r) :
    r < len := by
  unfold pyIndex at h
  split_ifs at h with h1 h2
  · injection h with h'
    omega
  · injection h with h'
    omega

/-- Any successful `__setitem__` resolves to an in-board position whose cell
had no pending stage, and writes that cell's committed state. -/
theorem Universe.setItem_ok (u : Universe) (x y : Int) (alive : Bool)
    (u' : Universe) (h : u.setItem x y alive = Except.ok u') :
    ∃ rx ry, pyIndex u.board.length y = some ry ∧
      pyIndex (u.board.getD ry []).length x = some rx ∧
      ry < u.board.length ∧ rx < (u.board.getD ry []).length ∧
      (u.cellAtD rx ry).state_dirty = none ∧
      u' = u.modifyCell rx ry (fun _ => { u.cellAtD rx ry with
        state := some (if alive then 1 else 0), state_dirty := none }) := by
  unfold Universe.setItem at h
  cases hpy : pyIndex u.board.length y with
  | none =>
    simp only [hpy] at h
    exact Except.noConfusion h
  | some ry =>
    simp only [hpy] at h
    cases hpx : pyIndex (u.board.getD ry []).length x with
    | none =>
      simp only [hpx] at h
      exact Except.noConfusion h
    | some rx =>
      simp only [hpx] at h
      by_cases hd : (u.cellAtD rx ry).state_dirty = none
      · refine ⟨rx, ry, rfl, hpx, pyIndex_lt hpy, pyIndex_lt hpx, hd, ?_⟩
        simp only [Cell.set_is_alive, if_pos hd] at h
        injection h with h'
        exact h'.symm
      · simp only [Cell.set_is_alive, if_neg hd] at h
        exact Except.noConfusion h

theorem Universe.setItem_clean (u : Universe) (hc : u.Clean) (x y : Int)
    (alive : Bool) (u' : Universe) (h : u.setItem x y alive = Except.ok u') :
    u'.Clean := by
  obtain ⟨rx, ry, _, _, hry, hrx, _, rfl⟩ := u.setItem_ok x y alive u' h
  apply Universe.clean_of_pointwise
  intro a b
  by_cases hab : (a, b) = (rx, ry)
  · rw [Prod.mk.injEq] at hab
    obtain ⟨rfl, rfl⟩ := hab
    rw [Universe.cellAtD_modifyCell_self u a b _ hry hrx]
  · rw [Universe.cellAtD_modifyCell_ne u rx ry _ a b hab]
    exact hc.dirty_eq a b

theorem Universe.Rect.row_len {u : Universe} (hr : u.Rect) {i : Nat}
    (hi : i < u.board.length) : (u.board.getD i []).length = u.width := by
  rw [List.getD_eq_getElem u.board [] hi]
  exact hr.2 _ (List.getElem_mem hi)

theorem Universe.aliveAt_oob (u : Universe) (a b : Nat)
    (h : ¬ u.InBoard (a, b)) : u.aliveAt a b = false := by
  unfold Universe.InBoard at h
  push_neg at h
  unfold Universe.aliveAt Universe.cellAtD
  rcases Nat.lt_or_ge b u.board.length with hb | hb
  · rw [List.getD_eq_default _ _ (h hb)]
    rfl
  · rw [List.getD_eq_default u.board [] hb,
      List.getD_eq_default ([] : List Cell) defaultCell (Nat.zero_le a)]
    rfl

theorem Universe.state_getD_eq_zero {u : Universe} {a b : Nat}
    (h : u.aliveAt a b = false) : (u.cellAtD a b).state.getD 0 = 0 := by
  unfold Universe.aliveAt Cell.is_alive at h
  simpa using h

/-- Evaluate `__setitem__` once both subscripts resolve and the target cell
has no pending stage. -/
theorem Universe.setItem_eval (u : Universe) (x y : Int) (rx ry : Nat)
    (alive : Bool)
    (hry : pyIndex u.board.length y = some ry)
    (hrx : pyIndex (u.board.getD ry []).length x = some rx)
    (hd : (u.cellAtD rx ry).state_dirty = none) :
    u.setItem x y alive = Except.ok (u.modifyCell rx ry
      (fun _ => { u.cellAtD rx ry with
        state := some (if alive then 1 else 0), state_dirty := none })) := by
  unfold Universe.setItem
  simp only [hry, hrx, Cell.set_is_alive, if_pos hd]
  rfl

/-! ## The claims -/

/-- C3, counterexample: the source constructor performs no validation, so
`construct(0, 5)` and `construct(5, 0)` do not fail with
`ConstructionError`; both succeed (with an empty flat cell list). -/
theorem construct_zero_dims_succeeds :
    Universe.construct 0 5 = Except.ok (Universe.init 0 5) ∧
    Universe.construct 5 0 = Except.ok (Universe.init 5 0) ∧
    (Universe.init 0 5).flatCoords = [] ∧
    (Universe.init 5 0).flatCoords = [] :=
  ⟨rfl, rfl, by decide, by decide⟩

/-- C3, amended: construction never fails, for any `width` and `height`
(including 0); it yields `height` rows of `width` cells each, every cell
dead with no pending stage.  For `width ≥ 1` and `height ≥ 1` that is the
claimed all-dead `width × height` universe. -/
theorem construct_always_ok_all_dead (w h : Nat) :
    Universe.construct w h = Except.ok (Universe.init w h) ∧
    (Universe.init w h).board.length = h ∧
    (∀ row ∈ (Universe.init w h).board, row.length = w) ∧
    (∀ row ∈ (Universe.init w h).board, ∀ c ∈ row,
      c.is_alive = false ∧ c.state = some 0 ∧ c.state_dirty = none) := by
  refine ⟨rfl, Universe.init_board_length w h, (Universe.init_rect w h).2, ?_⟩
  intro row hrow c hc
  unfold Universe.init at hrow
  simp only [List.mem_map, List.mem_range] at hrow
  obtain ⟨i, _, rfl⟩ := hrow
  simp only [List.mem_map, List.mem_range] at hc
  obtain ⟨j, _, rfl⟩ := hc
  exact ⟨rfl, rfl, rfl⟩

/-- C4, counterexample: `commit()` on a cell with no staged value does not
fail (there is no `DoubleCommit` check in `Cell.commit`), and it does not
leave the committed state unchanged: it overwrites an alive committed
state with `None`, which reads as dead. -/
theorem commit_without_stage_cex :
    Cell.commit { state := some 1, state_dirty := none, pos_x := 2, pos_y := 3 } =
      { state := none, state_dirty := none, pos_x := 2, pos_y := 3 } ∧
    ({ state := some 1, state_dirty := none, pos_x := 2, pos_y := 3 } : Cell).is_alive
      = true ∧
    (Cell.commit
      { state := some 1, state_dirty := none, pos_x := 2, pos_y := 3 }).is_alive
      = false := by
  decide

/-- C4, amended: `commit()` never fails.  With no staged value pending it
sets the committed state slot to `None` (read as dead) and leaves the
pending slot clear; with a staged value pending it sets the committed
state to the staged value and clears the pending slot. -/
theorem commit_applies_stage_or_clears (c : Cell) :
    (c.state_dirty = none →
      c.commit.state = none ∧ c.commit.is_alive = false ∧
      c.commit.state_dirty = none) ∧
    (∀ v, c.state_dirty = some v →
      c.commit.state = some v ∧ c.commit.state_dirty = none) := by
  constructor
  · intro h
    unfold Cell.commit
    rw [h]
    exact ⟨rfl, rfl, rfl⟩
  · intro v h
    unfold Cell.commit
    rw [h]
    exact ⟨rfl, rfl⟩

theorem commit_applies_stage_or_clears_witness :
    (Cell.commit ⟨some 1, none, 0, 0⟩).is_alive = false ∧
    (Cell.commit ⟨some 0, some 1, 0, 0⟩).state = some 1 :=
  ⟨((commit_applies_stage_or_clears _).1 rfl).2.1,
   ((commit_applies_stage_or_clears _).2 1 rfl).1⟩

/-- C5: a first `stage` (the `is_alive` setter) on a cell with no pending
stage records the staged value (`int(alive)`) and leaves the committed
state and position unchanged; a second `stage` before a `commit` fails with
`StagingConflict` (the setter's assertion), and — the model being
functional — returns no modified cell: the committed state and the
originally staged value stand. -/
theorem stage_once_then_conflict (c : Cell) (v w : Bool)
    (hd : c.state_dirty = none) :
    ∃ c', c.set_is_alive v = Except.ok c' ∧ c'.state = c.state ∧
      c'.pos_x = c.pos_x ∧ c'.pos_y = c.pos_y ∧
      c'.state_dirty = some (if v then 1 else 0) ∧
      c'.set_is_alive w = Except.error PyError.StagingConflict := by
  refine ⟨{ c with state_dirty := some (if v then 1 else 0) }, ?_, rfl, rfl,
    rfl, rfl, ?_⟩
  · unfold Cell.set_is_alive
    rw [if_pos hd]
  · unfold Cell.set_is_alive
    rw [if_neg (by simp)]

theorem stage_once_then_conflict_witness :
    ∃ c', (⟨some 0, none, 0, 0⟩ : Cell).set_is_alive true = Except.ok c' ∧
      c'.state = (⟨some 0, none, 0, 0⟩ : Cell).state ∧
      c'.pos_x = 0 ∧ c'.pos_y = 0 ∧
      c'.state_dirty = some (if true then 1 else 0) ∧
      c'.set_is_alive false = Except.error PyError.StagingConflict :=
  stage_once_then_conflict ⟨some 0, none, 0, 0⟩ true false rfl

/-- C6: `to_list` (the snapshot) is the `height × width` matrix of
committed aliveness, position by position; it hands back the universe it
was given unchanged, so a second call returns an identical matrix. -/
theorem snapshot_reads_without_mutating (u : Universe) (hr : u.Rect) :
    (u.to_list).1.length = u.height ∧
    (∀ row ∈ (u.to_list).1, row.length = u.width) ∧
    (∀ x y, ((u.to_list).1.getD y []).getD x false = u.aliveAt x y) ∧
    (u.to_list).2 = u ∧
    ((u.to_list).2.to_list).1 = (u.to_list).1 := by
  refine ⟨?_, ?_, fun x y => u.to_list_getD x y, rfl, rfl⟩
  · unfold Universe.to_list
    simp only [List.length_map]
    exact hr.1
  · intro row hrow
    unfold Universe.to_list at hrow
    simp only [List.mem_map] at hrow
    obtain ⟨orig, horig, rfl⟩ := hrow
    simp only [List.length_map]
    exact hr.2 orig horig

theorem snapshot_reads_without_mutating_witness :
    (Universe.init 2 3).Rect ∧
    ((Universe.init 2 3).to_list).1.length = 3 ∧
    (((Universe.init 2 3).to_list).1.getD 1 []).getD 0 false =
      (Universe.init 2 3).aliveAt 0 1 ∧
    ((Universe.init 2 3).to_list).2 = Universe.init 2 3 :=
  ⟨Universe.init_rect 2 3,
   (snapshot_reads_without_mutating _ (Universe.init_rect 2 3)).1,
   (snapshot_reads_without_mutating _ (Universe.init_rect 2 3)).2.2.1 0 1,
   (snapshot_reads_without_mutating _ (Universe.init_rect 2 3)).2.2.2.1⟩

/-- C9: the public API preserves the stable state (no pending stage
anywhere): a freshly constructed universe is clean, a successful
`universe[x, y] = alive` (stage immediately followed by commit) leaves it
clean, and on a clean universe `tick()` succeeds (never trips the staging
assertion) and commits every cell it staged, returning a clean universe. -/
theorem api_preserves_stable_state :
    (∀ w h, (Universe.init w h).Clean) ∧
    (∀ (u : Universe) (x y : Int) (alive : Bool) (u' : Universe),
      u.Clean → u.setItem x y alive = Except.ok u' → u'.Clean) ∧
    (∀ u : Universe, u.Clean →
      ∃ changed u', u.tick = Except.ok (changed, u') ∧ u'.Clean) := by
  refine ⟨Universe.init_clean, ?_, ?_⟩
  · intro u x y alive u' hc h
    exact u.setItem_clean hc x y alive u' h
  · intro u hc
    obtain ⟨u', ht, _⟩ := u.tick_spec hc
    exact ⟨_, u', ht, u.tick_clean hc ht⟩

theorem api_preserves_stable_state_witness :
    (Universe.init 3 3).Clean ∧
    (∃ changed u',
      ((Universe.init 3 3).setOk 1 1 true).tick = Except.ok (changed, u') ∧
      u'.Clean) :=
  ⟨api_preserves_stable_state.1 3 3,
   api_preserves_stable_state.2.2 ((Universe.init 3 3).setOk 1 1 true)
     (by decide)⟩

/-- C10, counterexample: the claim quantifies over every coordinate with a
negative in-range component, which includes pairs whose other component is
out of range; there `set` does fail (`IndexError` from `self._board[y]`),
rather than silently writing. -/
theorem set_negative_with_oob_row_fails :
    (Universe.init 3 3).setItem (-1) 5 true = Except.error PyError.IndexError
      ∧ (-(3 : Int) ≤ -1 ∧ (-1 : Int) < 0) := by
  constructor
  · decide
  · constructor
    · decide
    · decide

/-- C10, amended: when both components are within Python's list-index
range (`-len ≤ i < len`) and at least one is negative, `set` does not
fail: it silently writes `alive` at `(x mod width, y mod height)` —
negative coordinates wrap to the opposite edge — and touches no other
cell. -/
theorem set_negative_wraps (u : Universe) (hc : u.Clean) (hr : u.Rect)
    (x y : Int) (alive : Bool)
    (hx1 : -(u.width : Int) ≤ x) (hx2 : x < (u.width : Int))
    (hy1 : -(u.height : Int) ≤ y) (hy2 : y < (u.height : Int))
    (hneg : x < 0 ∨ y < 0) :
    ∃ u', u.setItem x y alive = Except.ok u' ∧
      u'.aliveAt (x % (u.width : Int)).toNat (y % (u.height : Int)).toNat
        = alive ∧
      (∀ a b,
        (a, b) ≠ ((x % (u.width : Int)).toNat, (y % (u.height : Int)).toNat) →
        u'.cellAtD a b = u.cellAtD a b) := by
  have hwpos : 0 < u.width := by omega
  have hhpos : 0 < u.height := by omega
  have hymod : y % (u.height : Int) = if y < 0 then y + u.height else y := by
    split_ifs with hylt
    · have h1 : (y + (u.height : Int) * 1) % (u.height : Int) =
          y % (u.height : Int) := Int.add_mul_emod_self_left y _ 1
      rw [mul_one] at h1
      rw [← h1]
      exact Int.emod_eq_of_lt (by omega) (by omega)
    · exact Int.emod_eq_of_lt (by omega) (by omega)
  have hxmod : x % (u.width : Int) = if x < 0 then x + u.width else x := by
    split_ifs with hxlt
    · have h1 : (x + (u.width : Int) * 1) % (u.width : Int) =
          x % (u.width : Int) := Int.add_mul_emod_self_left x _ 1
      rw [mul_one] at h1
      rw [← h1]
      exact Int.emod_eq_of_lt (by omega) (by omega)
    · exact Int.emod_eq_of_lt (by omega) (by omega)
  set ry : Nat := (y % (u.height : Int)).toNat with hry_def
  set rx : Nat := (x % (u.width : Int)).toNat with hrx_def
  have hry_lt : ry < u.board.length := by
    rw [hr.1]
    rw [hry_def, hymod]
    split_ifs <;> omega
  have hrow : (u.board.getD ry []).length = u.width := hr.row_len hry_lt
  have hrx_lt : rx < (u.board.getD ry []).length := by
    rw [hrow, hrx_def, hxmod]
    split_ifs <;> omega
  have hpy : pyIndex u.board.length y = some ry := by
    rcases Int.lt_or_le y 0 with hylt | hyge
    · rw [pyIndex_neg (by rw [hr.1]; omega) hylt]
      congr 1
      rw [hry_def, hymod, if_pos hylt, hr.1]
      omega
    · rw [pyIndex_nonneg hyge (by rw [hr.1]; omega)]
      congr 1
      rw [hry_def, hymod, if_neg (by omega)]
  have hpx : pyIndex (u.board.getD ry []).length x = some rx := by
    rcases Int.lt_or_le x 0 with hxlt | hxge
    · rw [pyIndex_neg (by rw [hrow]; omega) hxlt]
      congr 1
      rw [hrx_def, hxmod, if_pos hxlt, hrow]
      omega
    · rw [pyIndex_nonneg hxge (by rw [hrow]; omega)]
      congr 1
      rw [hrx_def, hxmod, if_neg (by omega)]
  refine ⟨_, u.setItem_eval x y rx ry alive hpy hpx (hc.dirty_eq rx ry), ?_, ?_⟩
  · unfold Universe.aliveAt
    rw [Universe.cellAtD_modifyCell_self u rx ry _ hry_lt hrx_lt]
    cases alive <;> rfl
  · intro a b hab
    exact Universe.cellAtD_modifyCell_ne u rx ry _ a b hab

theorem set_negative_wraps_witness :
    (Universe.init 3 3).Clean ∧ (Universe.init 3 3).Rect ∧
    (∃ u', (Universe.init 3 3).setItem (-1) (-2) true = Except.ok u' ∧
      u'.aliveAt ((-1 : Int) % ((Universe.init 3 3).width : Int)).toNat
        ((-2 : Int) % ((Universe.init 3 3).height : Int)).toNat = true ∧
      (∀ a b,
        (a, b) ≠ (((-1 : Int) % ((Universe.init 3 3).width : Int)).toNat,
          ((-2 : Int) % ((Universe.init 3 3).height : Int)).toNat) →
        u'.cellAtD a b = (Universe.init 3 3).cellAtD a b)) :=
  ⟨Universe.init_clean 3 3, Universe.init_rect 3 3,
   set_negative_wraps (Universe.init 3 3) (Universe.init_clean 3 3)
     (Universe.init_rect 3 3) (-1) (-2) true (by decide) (by decide)
     (by decide) (by decide) (Or.inl (by decide))⟩

/-- C1: on a clean universe `tick()` succeeds, and afterwards a cell is
alive exactly when it survived (was alive with neighbour count 2 or 3) or
was born (was dead with neighbour count 3), the count being
`get_alive_count` evaluated on the pre-tick committed generation (the
staging pass writes only `_state_dirty`, never `_state`, so no mid-tick
partially updated state is ever read). -/
theorem tick_applies_conway_rule (u : Universe) (hc : u.Clean)
    (changed : List (Nat × Nat)) (u' : Universe)
    (ht : u.tick = Except.ok (changed, u'))
    (x y : Nat) (hin : u.InBoard (x, y)) :
    u'.aliveAt x y = true ↔
      ((u.aliveAt x y = true ∧
        (u.get_alive_count x y = 2 ∨ u.get_alive_count x y = 3)) ∨
       (u.aliveAt x y = false ∧ u.get_alive_count x y = 3)) := by
  rw [u.tick_alive hc ht x y hin]
  unfold Universe.conwayNext
  cases hA : u.aliveAt x y <;> simp

theorem tick_applies_conway_rule_witness :
    ((Universe.init 3 3).setOk 1 1 true).Clean ∧
    ((Universe.init 3 3).setOk 1 1 true).InBoard (1, 1) ∧
    (((Universe.init 3 3).setOk 1 1 true).tickNext.aliveAt 1 1 = true ↔
      ((((Universe.init 3 3).setOk 1 1 true).aliveAt 1 1 = true ∧
        (((Universe.init 3 3).setOk 1 1 true).get_alive_count 1 1 = 2 ∨
         ((Universe.init 3 3).setOk 1 1 true).get_alive_count 1 1 = 3)) ∨
       (((Universe.init 3 3).setOk 1 1 true).aliveAt 1 1 = false ∧
        ((Universe.init 3 3).setOk 1 1 true).get_alive_count 1 1 = 3))) :=
  ⟨by decide, by decide,
   tick_applies_conway_rule ((Universe.init 3 3).setOk 1 1 true) (by decide)
     (((Universe.init 3 3).setOk 1 1 true).tickChanged)
     (((Universe.init 3 3).setOk 1 1 true).tickNext) (by decide)
     1 1 (by decide)⟩

/-- C2, counterexample: a 2×2 block away from the edges is a still life —
no cell's committed state flips — yet `tick()` does not return the empty
sequence: every live cell is appended to `changed` whether or not it
flipped, so the block's four cells are returned (and the universe is
unchanged). -/
theorem tick_block_returns_live_cells :
    (((((Universe.init 4 4).setOk 1 1 true).setOk 2 1 true).setOk 1 2
        true).setOk 2 2 true).tick =
      Except.ok ([(1, 1), (2, 1), (1, 2), (2, 2)],
        ((((Universe.init 4 4).setOk 1 1 true).setOk 2 1 true).setOk 1 2
          true).setOk 2 2 true) ∧
    ([(1, 1), (2, 1), (1, 2), (2, 2)] : List (Nat × Nat)) ≠ [] := by
  exact ⟨by decide, by decide⟩

/-- C2, amended: the sequence `tick()` returns lists, in flat row-major
order, exactly the staged cells: every cell that was alive before the tick
(flipped or not) plus every dead cell with exactly three live neighbours.
It is not restricted to cells whose committed state flipped. -/
theorem tick_changed_is_staged_cells (u : Universe) (hc : u.Clean)
    (changed : List (Nat × Nat)) (u' : Universe)
    (ht : u.tick = Except.ok (changed, u')) :
    changed = u.flatCoords.filter
      (fun p => u.aliveAt p.1 p.2 || (u.get_alive_count p.1 p.2 == 3)) := by
  obtain ⟨u'', hrun, _⟩ := u.tick_spec hc
  rw [ht] at hrun
  exact congrArg Prod.fst (Except.ok.inj hrun)

theorem tick_changed_is_staged_cells_witness :
    (((((Universe.init 4 4).setOk 1 1 true).setOk 2 1 true).setOk 1 2
        true).setOk 2 2 true).tickChanged =
      (((((Universe.init 4 4).setOk 1 1 true).setOk 2 1 true).setOk 1 2
        true).setOk 2 2 true).flatCoords.filter
        (fun p =>
          (((((Universe.init 4 4).setOk 1 1 true).setOk 2 1 true).setOk 1 2
            true).setOk 2 2 true).aliveAt p.1 p.2 ||
          ((((((Universe.init 4 4).setOk 1 1 true).setOk 2 1 true).setOk 1 2
            true).setOk 2 2 true).get_alive_count p.1 p.2 == 3)) :=
  tick_changed_is_staged_cells _ (by decide) _
    ((((((Universe.init 4 4).setOk 1 1 true).setOk 2 1 true).setOk 1 2
      true).setOk 2 2 true).tickNext) (by decide)

/-- C8: for a universe at least 2×2, the corner cell `(0,0)` has exactly 3
of its 8 neighbour offsets resolving to real cells (the other 5 resolve to
`None` and hence keep the permanently dead `Cell.NULL` sentinel), and if
`(0,0)` is the only live cell its alive-neighbour count is 0, so it dies
on the next `tick()`. -/
theorem corner_cell_dies (u : Universe) (hc : u.Clean) (hr : u.Rect)
    (hw : 2 ≤ u.width) (hh : 2 ≤ u.height)
    (halive : u.aliveAt 0 0 = true)
    (hothers : ∀ p ∈ u.flatCoords, p ≠ ((0, 0) : Nat × Nat) →
      u.aliveAt p.1 p.2 = false) :
    (Neighbours.offsets.filter
        (fun nb => (u.get_neighbour 0 0 nb).isSome)).length = 3 ∧
    u.get_alive_count 0 0 = 0 ∧
    ∃ changed u', u.tick = Except.ok (changed, u') ∧
      u'.aliveAt 0 0 = false := by
  have hb0 : 0 < u.board.length := by rw [hr.1]; omega
  have hb1 : 1 < u.board.length := by rw [hr.1]; omega
  have hrow0 : (u.board.getD 0 []).length = u.width := hr.row_len hb0
  have hrow1 : (u.board.getD 1 []).length = u.width := hr.row_len hb1
  have hin10 : ((1, 0) : Nat × Nat) ∈ u.flatCoords :=
    Universe.mem_flatCoords.mpr ⟨hb0, by rw [hrow0]; omega⟩
  have hin01 : ((0, 1) : Nat × Nat) ∈ u.flatCoords :=
    Universe.mem_flatCoords.mpr ⟨hb1, by rw [hrow1]; omega⟩
  have hin11 : ((1, 1) : Nat × Nat) ∈ u.flatCoords :=
    Universe.mem_flatCoords.mpr ⟨hb1, by rw [hrow1]; omega⟩
  have hs10 : (u.cellAtD 1 0).state.getD 0 = 0 :=
    Universe.state_getD_eq_zero (hothers (1, 0) hin10 (by simp))
  have hs01 : (u.cellAtD 0 1).state.getD 0 = 0 :=
    Universe.state_getD_eq_zero (hothers (0, 1) hin01 (by simp))
  have hs11 : (u.cellAtD 1 1).state.getD 0 = 0 :=
    Universe.state_getD_eq_zero (hothers (1, 1) hin11 (by simp))
  have hnTop : u.get_neighbour 0 0 Neighbours.top = none := by
    simp only [Universe.get_neighbour, Neighbours.top]
    rw [if_neg (by omega)]
  have hnTopRight : u.get_neighbour 0 0 Neighbours.top_right = none := by
    simp only [Universe.get_neighbour, Neighbours.top_right]
    rw [if_neg (by omega)]
  have hnRight : u.get_neighbour 0 0 Neighbours.right =
      some (u.cellAtD 1 0) := by
    simp only [Universe.get_neighbour, Neighbours.right]
    rw [if_pos (by constructor <;> omega)]
    norm_num
  have hnBottomRight : u.get_neighbour 0 0 Neighbours.bottom_right =
      some (u.cellAtD 1 1) := by
    simp only [Universe.get_neighbour, Neighbours.bottom_right]
    rw [if_pos (by constructor <;> omega)]
    norm_num
  have hnBottom : u.get_neighbour 0 0 Neighbours.bottom =
      some (u.cellAtD 0 1) := by
    simp only [Universe.get_neighbour, Neighbours.bottom]
    rw [if_pos (by constructor <;> omega)]
    norm_num
  have hnBottomLeft : u.get_neighbour 0 0 Neighbours.bottom_left = none := by
    simp only [Universe.get_neighbour, Neighbours.bottom_left]
    rw [if_neg (by omega)]
  have hnLeft : u.get_neighbour 0 0 Neighbours.left = none := by
    simp only [Universe.get_neighbour, Neighbours.left]
    rw [if_neg (by omega)]
  have hnTopLeft : u.get_neighbour 0 0 Neighbours.top_left = none := by
    simp only [Universe.get_neighbour, Neighbours.top_left]
    rw [if_neg (by omega)]
  have hcount : u.get_alive_count 0 0 = 0 := by
    rw [Universe.get_alive_count_expand]
    have e1 : u.neighbourState 0 0 Neighbours.top = 0 := by
      simp only [Universe.neighbourState, hnTop]
    have e2 : u.neighbourState 0 0 Neighbours.top_right = 0 := by
      simp only [Universe.neighbourState, hnTopRight]
    have e3 : u.neighbourState 0 0 Neighbours.right = 0 := by
      simp only [Universe.neighbourState, hnRight]
      exact hs10
    have e4 : u.neighbourState 0 0 Neighbours.bottom_right = 0 := by
      simp only [Universe.neighbourState, hnBottomRight]
      exact hs11
    have e5 : u.neighbourState 0 0 Neighbours.bottom = 0 := by
      simp only [Universe.neighbourState, hnBottom]
      exact hs01
    have e6 : u.neighbourState 0 0 Neighbours.bottom_left = 0 := by
      simp only [Universe.neighbourState, hnBottomLeft]
    have e7 : u.neighbourState 0 0 Neighbours.left = 0 := by
      simp only [Universe.neighbourState, hnLeft]
    have e8 : u.neighbourState 0 0 Neighbours.top_left = 0 := by
      simp only [Universe.neighbourState, hnTopLeft]
    rw [e1, e2, e3, e4, e5, e6, e7, e8]
  refine ⟨?_, hcount, ?_⟩
  · simp [Neighbours.offsets, List.filter_cons, hnTop, hnTopRight, hnRight,
      hnBottomRight, hnBottom, hnBottomLeft, hnLeft, hnTopLeft]
  · have hin00 : u.InBoard (0, 0) := ⟨hb0, by rw [hrow0]; omega⟩
    obtain ⟨u', ht, _⟩ := u.tick_spec hc
    refine ⟨_, u', ht, ?_⟩
    rw [u.tick_alive hc ht 0 0 hin00]
    unfold Universe.conwayNext
    rw [if_pos halive, hcount]
    rfl

theorem corner_cell_dies_witness :
    ((Universe.init 2 2).setOk 0 0 true).Clean ∧
    ((Universe.init 2 2).setOk 0 0 true).Rect ∧
    ((Universe.init 2 2).setOk 0 0 true).aliveAt 0 0 = true ∧
    ((Neighbours.offsets.filter
        (fun nb =>
          (((Universe.init 2 2).setOk 0 0 true).get_neighbour 0 0 nb).isSome)).length
      = 3 ∧
    ((Universe.init 2 2).setOk 0 0 true).get_alive_count 0 0 = 0 ∧
    ∃ changed u', ((Universe.init 2 2).setOk 0 0 true).tick =
        Except.ok (changed, u') ∧
      u'.aliveAt 0 0 = false) :=
  ⟨by decide, by decide, by decide,
   corner_cell_dies ((Universe.init 2 2).setOk 0 0 true) (by decide)
     (by decide) (by decide) (by decide) (by decide) (by decide)⟩

/-! ### Parametric blinker analysis (C7) -/

theorem bool_eq_of_iff {x y : Bool} (h : x = true ↔ y = true) : x = y := by
  cases x <;> cases y <;> simp_all

/-- On a universe whose states are all `int` 0/1, a neighbour slot reads 1
exactly when the offset stays in bounds and the aliased cell is alive. -/
theorem Universe.neighbourState_eq_indicator (u : Universe) (hb : u.Bool01)
    (x y : Nat) (nb : Neighbour) :
    u.neighbourState x y nb =
      if (-1 < (x : Int) + nb.x ∧ (x : Int) + nb.x < (u.width : Int) ∧
          -1 < (y : Int) + nb.y ∧ (y : Int) + nb.y < (u.height : Int)) ∧
        u.aliveAt ((x : Int) + nb.x).toNat ((y : Int) + nb.y).toNat = true
      then 1 else 0 := by
  unfold Universe.neighbourState Universe.get_neighbour
  by_cases hcond : (-1 < (x : Int) + nb.x ∧ (x : Int) + nb.x < (u.width : Int) ∧
      -1 < (y : Int) + nb.y ∧ (y : Int) + nb.y < (u.height : Int))
  · simp only [if_pos hcond]
    by_cases hA : u.aliveAt ((x : Int) + nb.x).toNat ((y : Int) + nb.y).toNat
      = true
    · rw [if_pos ⟨hcond, hA⟩]
      rcases hb.state_eq (((x : Int) + nb.x).toNat) (((y : Int) + nb.y).toNat)
        with h0 | h1
      · exfalso
        unfold Universe.aliveAt Cell.is_alive at hA
        rw [h0] at hA
        simp at hA
      · rw [h1]
        rfl
    · rw [if_neg (fun hcon => hA hcon.2)]
      exact Universe.state_getD_eq_zero
        (by simpa using Bool.not_eq_true _ ▸ hA)
  · simp only [if_neg hcond]
    rw [if_neg (fun hcon => hcond hcon.1)]

/-- Two universes of the same shape and the same committed aliveness have
identical snapshots. -/
theorem Universe.to_list_congr {u v : Universe}
    (h1 : u.board.length = v.board.length)
    (h2 : ∀ i, (u.board.getD i []).length = (v.board.getD i []).length)
    (h3 : ∀ a b, u.aliveAt a b = v.aliveAt a b) :
    (u.to_list).1 = (v.to_list).1 := by
  have hl1 : (u.to_list).1.length = u.board.length := by
    simp [Universe.to_list]
  have hl2 : (v.to_list).1.length = v.board.length := by
    simp [Universe.to_list]
  apply List.ext_getElem
  · rw [hl1, hl2, h1]
  intro i hi hi'
  have hiu : i < u.board.length := by rw [← hl1]; exact hi
  have hiv : i < v.board.length := by rw [← hl2]; exact hi'
  have hru : (u.to_list).1[i] = (u.to_list).1.getD i [] := by
    rw [List.getD_eq_getElem _ _ hi]
  have hrv : (v.to_list).1[i] = (v.to_list).1.getD i [] := by
    rw [List.getD_eq_getElem _ _ hi']
  rw [hru, hrv]
  have hlru : ((u.to_list).1.getD i []).length = (u.board.getD i []).length := by
    unfold Universe.to_list
    simp only
    rw [List.getD_eq_getElem (u.board.map (fun row => row.map Cell.is_alive))
        [] (by simpa using hiu)]
    simp only [List.getElem_map, List.length_map]
    rw [List.getD_eq_getElem u.board [] hiu]
  have hlrv : ((v.to_list).1.getD i []).length = (v.board.getD i []).length := by
    unfold Universe.to_list
    simp only
    rw [List.getD_eq_getElem (v.board.map (fun row => row.map Cell.is_alive))
        [] (by simpa using hiv)]
    simp only [List.getElem_map, List.length_map]
    rw [List.getD_eq_getElem v.board [] hiv]
  apply List.ext_getElem
  · rw [hlru, hlrv, h2]
  intro j hj hj'
  have hju : j < ((u.to_list).1.getD i []).length := hj
  have hjv : j < ((v.to_list).1.getD i []).length := hj'
  rw [show ((u.to_list).1.getD i [])[j] =
      ((u.to_list).1.getD i []).getD j false from
    (List.getD_eq_getElem _ _ hju).symm]
  rw [show ((v.to_list).1.getD i [])[j] =
      ((v.to_list).1.getD i []).getD j false from
    (List.getD_eq_getElem _ _ hjv).symm]
  rw [u.to_list_getD, v.to_list_getD, h3]

set_option maxHeartbeats 1600000 in
/-- One tick of a horizontal blinker (bar `x₀-1..x₀+1` in row `y₀`, with
one free cell of margin), cell by cell: the staged set is the horizontal
bar plus the two vertical tips, and the next state is the vertical bar. -/
theorem blinker_step_horizontal (u : Universe) (hb : u.Bool01)
    (w h x₀ y₀ : Nat) (hw : u.width = w) (hh : u.height = h)
    (hx1 : 1 ≤ x₀) (hx2 : x₀ + 1 < w) (hy1 : 1 ≤ y₀) (hy2 : y₀ + 1 < h)
    (hU : ∀ a b, u.aliveAt a b =
      decide (b = y₀ ∧ (a + 1 = x₀ ∨ a = x₀ ∨ a = x₀ + 1))) :
    ∀ a b,
      (u.stagedQ (a, b) = true ↔
        ((b = y₀ ∧ (a + 1 = x₀ ∨ a = x₀ ∨ a = x₀ + 1)) ∨
         (a = x₀ ∧ (b + 1 = y₀ ∨ b = y₀ + 1)))) ∧
      (u.conwayNext a b = true ↔
        (a = x₀ ∧ (b + 1 = y₀ ∨ b = y₀ ∨ b = y₀ + 1))) := by
  intro a b
  have e1 : u.neighbourState a b Neighbours.top =
      if (b = y₀ + 1 ∧ (a + 1 = x₀ ∨ a = x₀ ∨ a = x₀ + 1)) then 1 else 0 := by
    rw [u.neighbourState_eq_indicator hb a b Neighbours.top]
    refine if_congr ?_ rfl rfl
    simp only [Neighbours.top, hU, hw, hh, decide_eq_true_eq]
    omega
  have e2 : u.neighbourState a b Neighbours.top_right =
      if (b = y₀ + 1 ∧ (a + 2 = x₀ ∨ a + 1 = x₀ ∨ a = x₀)) then 1 else 0 := by
    rw [u.neighbourState_eq_indicator hb a b Neighbours.top_right]
    refine if_congr ?_ rfl rfl
    simp only [Neighbours.top_right, hU, hw, hh, decide_eq_true_eq]
    omega
  have e3 : u.neighbourState a b Neighbours.right =
      if (b = y₀ ∧ (a + 2 = x₀ ∨ a + 1 = x₀ ∨ a = x₀)) then 1 else 0 := by
    rw [u.neighbourState_eq_indicator hb a b Neighbours.right]
    refine if_congr ?_ rfl rfl
    simp only [Neighbours.right, hU, hw, hh, decide_eq_true_eq]
    omega
  have e4 : u.neighbourState a b Neighbours.bottom_right =
      if (b + 1 = y₀ ∧ (a + 2 = x₀ ∨ a + 1 = x₀ ∨ a = x₀)) then 1 else 0 := by
    rw [u.neighbourState_eq_indicator hb a b Neighbours.bottom_right]
    refine if_congr ?_ rfl rfl
    simp only [Neighbours.bottom_right, hU, hw, hh, decide_eq_true_eq]
    omega
  have e5 : u.neighbourState a b Neighbours.bottom =
      if (b + 1 = y₀ ∧ (a + 1 = x₀ ∨ a = x₀ ∨ a = x₀ + 1)) then 1 else 0 := by
    rw [u.neighbourState_eq_indicator hb a b Neighbours.bottom]
    refine if_congr ?_ rfl rfl
    simp only [Neighbours.bottom, hU, hw, hh, decide_eq_true_eq]
    omega
  have e6 : u.neighbourState a b Neighbours.bottom_left =
      if (b + 1 = y₀ ∧ (a = x₀ ∨ a = x₀ + 1 ∨ a = x₀ + 2)) then 1 else 0 := by
    rw [u.neighbourState_eq_indicator hb a b Neighbours.bottom_left]
    refine if_congr ?_ rfl rfl
    simp only [Neighbours.bottom_left, hU, hw, hh, decide_eq_true_eq]
    omega
  have e7 : u.neighbourState a b Neighbours.left =
      if (b = y₀ ∧ (a = x₀ ∨ a = x₀ + 1 ∨ a = x₀ + 2)) then 1 else 0 := by
    rw [u.neighbourState_eq_indicator hb a b Neighbours.left]
    refine if_congr ?_ rfl rfl
    simp only [Neighbours.left, hU, hw, hh, decide_eq_true_eq]
    omega
  have e8 : u.neighbourState a b Neighbours.top_left =
      if (b = y₀ + 1 ∧ (a = x₀ ∨ a = x₀ + 1 ∨ a = x₀ + 2)) then 1 else 0 := by
    rw [u.neighbourState_eq_indicator hb a b Neighbours.top_left]
    refine if_congr ?_ rfl rfl
    simp only [Neighbours.top_left, hU, hw, hh, decide_eq_true_eq]
    omega
  constructor
  · show (u.aliveAt a b || (u.get_alive_count a b == 3)) = true ↔ _
    rw [Universe.get_alive_count_expand, e1, e2, e3, e4, e5, e6, e7, e8,
      hU a b]
    simp only [Bool.or_eq_true, decide_eq_true_eq, beq_iff_eq]
    split_ifs <;> omega
  · show (if u.aliveAt a b = true
        then (u.get_alive_count a b == 2 || u.get_alive_count a b == 3)
        else (u.get_alive_count a b == 3)) = true ↔ _
    by_cases hAp : (b = y₀ ∧ (a + 1 = x₀ ∨ a = x₀ ∨ a = x₀ + 1))
    · have hA : u.aliveAt a b = true := by
        rw [hU a b]
        exact decide_eq_true hAp
      rw [if_pos hA, Universe.get_alive_count_expand, e1, e2, e3, e4, e5, e6,
        e7, e8]
      simp only [Bool.or_eq_true, beq_iff_eq]
      split_ifs <;> omega
    · have hA : u.aliveAt a b = false := by
        rw [hU a b]
        exact decide_eq_false hAp
      have hA' : ¬(u.aliveAt a b = true) := by
        rw [hA]
        exact Bool.false_ne_true
      rw [if_neg hA', Universe.get_alive_count_expand, e1, e2, e3, e4, e5, e6,
        e7, e8]
      simp only [beq_iff_eq]
      split_ifs <;> omega

set_option maxHeartbeats 1600000 in
/-- One tick of a vertical blinker (bar `y₀-1..y₀+1` in column `x₀`, with
one free cell of margin), cell by cell: the staged set is the vertical bar
plus the two horizontal tips, and the next state is the horizontal bar. -/
theorem blinker_step_vertical (u : Universe) (hb : u.Bool01)
    (w h x₀ y₀ : Nat) (hw : u.width = w) (hh : u.height = h)
    (hx1 : 1 ≤ x₀) (hx2 : x₀ + 1 < w) (hy1 : 1 ≤ y₀) (hy2 : y₀ + 1 < h)
    (hU : ∀ a b, u.aliveAt a b =
      decide (a = x₀ ∧ (b + 1 = y₀ ∨ b = y₀ ∨ b = y₀ + 1))) :
    ∀ a b,
      (u.stagedQ (a, b) = true ↔
        ((a = x₀ ∧ (b + 1 = y₀ ∨ b = y₀ ∨ b = y₀ + 1)) ∨
         (b = y₀ ∧ (a + 1 = x₀ ∨ a = x₀ + 1)))) ∧
      (u.conwayNext a b = true ↔
        (b = y₀ ∧ (a + 1 = x₀ ∨ a = x₀ ∨ a = x₀ + 1))) := by
  intro a b
  have e1 : u.neighbourState a b Neighbours.top =
      if (a = x₀ ∧ (b = y₀ ∨ b = y₀ + 1 ∨ b = y₀ + 2)) then 1 else 0 := by
    rw [u.neighbourState_eq_indicator hb a b Neighbours.top]
    refine if_congr ?_ rfl rfl
    simp only [Neighbours.top, hU, hw, hh, decide_eq_true_eq]
    omega
  have e2 : u.neighbourState a b Neighbours.top_right =
      if (a + 1 = x₀ ∧ (b = y₀ ∨ b = y₀ + 1 ∨ b = y₀ + 2)) then 1 else 0 := by
    rw [u.neighbourState_eq_indicator hb a b Neighbours.top_right]
    refine if_congr ?_ rfl rfl
    simp only [Neighbours.top_right, hU, hw, hh, decide_eq_true_eq]
    omega
  have e3 : u.neighbourState a b Neighbours.right =
      if (a + 1 = x₀ ∧ (b + 1 = y₀ ∨ b = y₀ ∨ b = y₀ + 1)) then 1 else 0 := by
    rw [u.neighbourState_eq_indicator hb a b Neighbours.right]
    refine if_congr ?_ rfl rfl
    simp only [Neighbours.right, hU, hw, hh, decide_eq_true_eq]
    omega
  have e4 : u.neighbourState a b Neighbours.bottom_right =
      if (a + 1 = x₀ ∧ (b + 2 = y₀ ∨ b + 1 = y₀ ∨ b = y₀)) then 1 else 0 := by
    rw [u.neighbourState_eq_indicator hb a b Neighbours.bottom_right]
    refine if_congr ?_ rfl rfl
    simp only [Neighbours.bottom_right, hU, hw, hh, decide_eq_true_eq]
    omega
  have e5 : u.neighbourState a b Neighbours.bottom =
      if (a = x₀ ∧ (b + 2 = y₀ ∨ b + 1 = y₀ ∨ b = y₀)) then 1 else 0 := by
    rw [u.neighbourState_eq_indicator hb a b Neighbours.bottom]
    refine if_congr ?_ rfl rfl
    simp only [Neighbours.bottom, hU, hw, hh, decide_eq_true_eq]
    omega
  have e6 : u.neighbourState a b Neighbours.bottom_left =
      if (a = x₀ + 1 ∧ (b + 2 = y₀ ∨ b + 1 = y₀ ∨ b = y₀)) then 1 else 0 := by
    rw [u.neighbourState_eq_indicator hb a b Neighbours.bottom_left]
    refine if_congr ?_ rfl rfl
    simp only [Neighbours.bottom_left, hU, hw, hh, decide_eq_true_eq]
    omega
  have e7 : u.neighbourState a b Neighbours.left =
      if (a = x₀ + 1 ∧ (b + 1 = y₀ ∨ b = y₀ ∨ b = y₀ + 1)) then 1 else 0 := by
    rw [u.neighbourState_eq_indicator hb a b Neighbours.left]
    refine if_congr ?_ rfl rfl
    simp only [Neighbours.left, hU, hw, hh, decide_eq_true_eq]
    omega
  have e8 : u.neighbourState a b Neighbours.top_left =
      if (a = x₀ + 1 ∧ (b = y₀ ∨ b = y₀ + 1 ∨ b = y₀ + 2)) then 1 else 0 := by
    rw [u.neighbourState_eq_indicator hb a b Neighbours.top_left]
    refine if_congr ?_ rfl rfl
    simp only [Neighbours.top_left, hU, hw, hh, decide_eq_true_eq]
    omega
  constructor
  · show (u.aliveAt a b || (u.get_alive_count a b == 3)) = true ↔ _
    rw [Universe.get_alive_count_expand, e1, e2, e3, e4, e5, e6, e7, e8,
      hU a b]
    simp only [Bool.or_eq_true, decide_eq_true_eq, beq_iff_eq]
    split_ifs <;> omega
  · show (if u.aliveAt a b = true
        then (u.get_alive_count a b == 2 || u.get_alive_count a b == 3)
        else (u.get_alive_count a b == 3)) = true ↔ _
    by_cases hAp : (a = x₀ ∧ (b + 1 = y₀ ∨ b = y₀ ∨ b = y₀ + 1))
    · have hA : u.aliveAt a b = true := by
        rw [hU a b]
        exact decide_eq_true hAp
      rw [if_pos hA, Universe.get_alive_count_expand, e1, e2, e3, e4, e5, e6,
        e7, e8]
      simp only [Bool.or_eq_true, beq_iff_eq]
      split_ifs <;> omega
    · have hA : u.aliveAt a b = false := by
        rw [hU a b]
        exact decide_eq_false hAp
      have hA' : ¬(u.aliveAt a b = true) := by
        rw [hA]
        exact Bool.false_ne_true
      rw [if_neg hA', Universe.get_alive_count_expand, e1, e2, e3, e4, e5, e6,
        e7, e8]
      simp only [beq_iff_eq]
      split_ifs <;> omega

theorem Universe.setOk_eq {u : Universe} {x y : Int} {alive : Bool}
    {u' : Universe} (h : u.setItem x y alive = Except.ok u') :
    u.setOk x y alive = u' := by
  unfold Universe.setOk
  rw [h]

/-- C7, amended: a blinker (three in a row, one cell of margin) has period
2: two `tick()`s restore the committed grid exactly, and the second tick's
changed-cell sequence is *identical* to the first tick's (both list, in
flat row-major order, the five cells of the cross the two phases span) —
not its reverse. -/
theorem blinker_period_two (w h x₀ y₀ : Nat)
    (hx1 : 1 ≤ x₀) (hx2 : x₀ + 1 < w) (hy1 : 1 ≤ y₀) (hy2 : y₀ + 1 < h) :
    ∃ c₁ u₁ c₂ u₂,
      (blinkerSeed w h x₀ y₀).tick = Except.ok (c₁, u₁) ∧
      u₁.tick = Except.ok (c₂, u₂) ∧
      (u₂.to_list).1 = ((blinkerSeed w h x₀ y₀).to_list).1 ∧
      c₂ = c₁ := by
  have hc0 := Universe.init_clean w h
  have hb0 := Universe.init_bool01 w h
  have hlen0 : (Universe.init w h).board.length = h :=
    Universe.init_board_length w h
  have hrow0 : ∀ i, ((Universe.init w h).board.getD i []).length =
      if i < h then w else 0 := Universe.init_row_length w h
  obtain ⟨v1, hset1, hw1, hh1, hl1, hr1, hcl1, hb1imp, ha1⟩ :=
    (Universe.init w h).setItem_pointwise hc0 (x₀ - 1) y₀
      (by rw [hlen0]; omega)
      (by rw [hrow0 y₀, if_pos (by omega)]; omega) true
  have hb1 := hb1imp hb0
  obtain ⟨v2, hset2, hw2, hh2, hl2, hr2, hcl2, hb2imp, ha2⟩ :=
    v1.setItem_pointwise hcl1 x₀ y₀
      (by rw [hl1, hlen0]; omega)
      (by rw [hr1 y₀, hrow0 y₀, if_pos (by omega)]; omega) true
  have hb2 := hb2imp hb1
  obtain ⟨v3, hset3, hw3, hh3, hl3, hr3, hcl3, hb3imp, ha3⟩ :=
    v2.setItem_pointwise hcl2 (x₀ + 1) y₀
      (by rw [hl2, hl1, hlen0]; omega)
      (by rw [hr2 y₀, hr1 y₀, hrow0 y₀, if_pos (by omega)]; omega) true
  have hb3 := hb3imp hb2
  have hUeq : blinkerSeed w h x₀ y₀ = v3 := by
    unfold blinkerSeed
    rw [Universe.setOk_eq hset1, Universe.setOk_eq hset2,
      Universe.setOk_eq hset3]
  have hWv3 : v3.width = w := by
    rw [hw3, hw2, hw1]
    rfl
  have hHv3 : v3.height = h := by
    rw [hh3, hh2, hh1]
    rfl
  have hLv3 : v3.board.length = h := by
    rw [hl3, hl2, hl1, hlen0]
  have hRv3 : ∀ i, (v3.board.getD i []).length = if i < h then w else 0 :=
    fun i => by rw [hr3 i, hr2 i, hr1 i, hrow0 i]
  have hU : ∀ a b, v3.aliveAt a b =
      decide (b = y₀ ∧ (a + 1 = x₀ ∨ a = x₀ ∨ a = x₀ + 1)) := by
    intro a b
    rw [ha3 a b, ha2 a b, ha1 a b, Universe.init_aliveAt]
    split_ifs with h1 h2 h3
    · symm
      rw [decide_eq_true_eq]
      rw [Prod.mk.injEq] at h1
      omega
    · symm
      rw [decide_eq_true_eq]
      rw [Prod.mk.injEq] at h2
      omega
    · symm
      rw [decide_eq_true_eq]
      rw [Prod.mk.injEq] at h3
      omega
    · symm
      rw [decide_eq_false_iff_not]
      rw [Prod.mk.injEq] at h1 h2 h3
      omega
  have stepH := blinker_step_horizontal v3 hb3 w h x₀ y₀ hWv3 hHv3 hx1 hx2
    hy1 hy2 hU
  obtain ⟨u₁, ht1, hwu1, hhu1, hlu1, hru1, _⟩ := v3.tick_spec hcl3
  have hcu1 : u₁.Clean := v3.tick_clean hcl3 ht1
  have hbu1 : u₁.Bool01 := v3.tick_bool01 hcl3 hb3 ht1
  have hWu1 : u₁.width = w := by rw [hwu1, hWv3]
  have hHu1 : u₁.height = h := by rw [hhu1, hHv3]
  have hInB : ∀ a b, v3.InBoard (a, b) ↔ (b < h ∧ a < w) := by
    intro a b
    unfold Universe.InBoard
    rw [hLv3]
    simp only
    constructor
    · rintro ⟨hbh, hax⟩
      rw [hRv3 b, if_pos hbh] at hax
      exact ⟨hbh, hax⟩
    · rintro ⟨hbh, haw⟩
      exact ⟨hbh, by rw [hRv3 b, if_pos hbh]; exact haw⟩
  have hInB1 : ∀ a b, u₁.InBoard (a, b) ↔ (b < h ∧ a < w) := by
    intro a b
    unfold Universe.InBoard
    rw [hlu1, hLv3]
    simp only
    constructor
    · rintro ⟨hbh, hax⟩
      rw [hru1 b, hRv3 b, if_pos hbh] at hax
      exact ⟨hbh, hax⟩
    · rintro ⟨hbh, haw⟩
      exact ⟨hbh, by rw [hru1 b, hRv3 b, if_pos hbh]; exact haw⟩
  have hU1 : ∀ a b, u₁.aliveAt a b =
      decide (a = x₀ ∧ (b + 1 = y₀ ∨ b = y₀ ∨ b = y₀ + 1)) := by
    intro a b
    by_cases hin : v3.InBoard (a, b)
    · rw [v3.tick_alive hcl3 ht1 a b hin]
      apply bool_eq_of_iff
      rw [decide_eq_true_eq]
      exact (stepH a b).2
    · rw [Universe.aliveAt_oob u₁ a b
        (fun hcin => hin ((hInB a b).mpr ((hInB1 a b).mp hcin)))]
      symm
      rw [decide_eq_false_iff_not]
      intro hcon
      apply hin
      rw [hInB a b]
      omega
  have stepV := blinker_step_vertical u₁ hbu1 w h x₀ y₀ hWu1 hHu1 hx1 hx2
    hy1 hy2 hU1
  obtain ⟨u₂, ht2, hwu2, hhu2, hlu2, hru2, _⟩ := u₁.tick_spec hcu1
  have hInB2 : ∀ a b, u₂.InBoard (a, b) ↔ (b < h ∧ a < w) := by
    intro a b
    unfold Universe.InBoard
    rw [hlu2, hlu1, hLv3]
    simp only
    constructor
    · rintro ⟨hbh, hax⟩
      rw [hru2 b, hru1 b, hRv3 b, if_pos hbh] at hax
      exact ⟨hbh, hax⟩
    · rintro ⟨hbh, haw⟩
      exact ⟨hbh, by rw [hru2 b, hru1 b, hRv3 b, if_pos hbh]; exact haw⟩
  have hcc : u₁.flatCoords.filter u₁.stagedQ =
      v3.flatCoords.filter v3.stagedQ := by
    rw [Universe.flatCoords_congr hlu1 hru1]
    apply List.filter_congr
    intro p _
    obtain ⟨a, b⟩ := p
    apply bool_eq_of_iff
    rw [(stepV a b).1, (stepH a b).1]
    omega
  have hback : ∀ a b, u₂.aliveAt a b = v3.aliveAt a b := by
    intro a b
    by_cases hin : u₁.InBoard (a, b)
    · rw [u₁.tick_alive hcu1 ht2 a b hin, hU a b]
      apply bool_eq_of_iff
      rw [decide_eq_true_eq]
      exact (stepV a b).2
    · rw [Universe.aliveAt_oob u₂ a b
          (fun hcin => hin ((hInB1 a b).mpr ((hInB2 a b).mp hcin))),
        Universe.aliveAt_oob v3 a b
          (fun hcin => hin ((hInB1 a b).mpr ((hInB a b).mp hcin)))]
  refine ⟨_, u₁, _, u₂, ?_, ht2, ?_, hcc⟩
  · rw [hUeq]
    exact ht1
  · rw [hUeq]
    exact Universe.to_list_congr (hlu2.trans hlu1)
      (fun i => (hru2 i).trans (hru1 i)) hback

theorem blinker_period_two_witness :
    ((1 : Nat) ≤ 2 ∧ 2 + 1 < 5) ∧
    ∃ c₁ u₁ c₂ u₂,
      (blinkerSeed 5 5 2 2).tick = Except.ok (c₁, u₁) ∧
      u₁.tick = Except.ok (c₂, u₂) ∧
      (u₂.to_list).1 = ((blinkerSeed 5 5 2 2).to_list).1 ∧
      c₂ = c₁ :=
  ⟨⟨by decide, by decide⟩,
   blinker_period_two 5 5 2 2 (by decide) (by decide) (by decide) (by decide)⟩

/-- C7, counterexample: for the 5×5 blinker the second tick's changed-cell
sequence equals the first one — `[(2,1), (1,2), (2,2), (3,2), (2,3)]` both
times, a sequence that is not its own reverse — so it is not the reverse
of the first tick's sequence (while the grid does return to its original
state). -/
theorem blinker_changed_not_reversed :
    (blinkerSeed 5 5 2 2).tickChanged =
      [(2, 1), (1, 2), (2, 2), (3, 2), (2, 3)] ∧
    ((blinkerSeed 5 5 2 2).tickNext).tickChanged =
      [(2, 1), (1, 2), (2, 2), (3, 2), (2, 3)] ∧
    (((blinkerSeed 5 5 2 2).tickNext).tickNext).to_list =
      (blinkerSeed 5 5 2 2).to_list ∧
    ([(2, 1), (1, 2), (2, 2), (3, 2), (2, 3)] : List (Nat × Nat)).reverse ≠
      [(2, 1), (1, 2), (2, 2), (3, 2), (2, 3)] := by
  exact ⟨by decide, by decide, by decide, by decide⟩
